import Mathlib

/-!
Verification of the MIU tauri-client against its natural-language spec.

Shallow embedding of the relevant parts of the source:
  - `src/tauri-client/src/state.rs`  (AppState, PlaybackStatus, PlaybackClock)
  - `src/tauri-client/src/server.rs` (ServerClient: SSE event loop, state and
    sync_play handlers, sync_play_now restart procedure, reconnect backoff)
  - `src/tauri-client/src/audio.rs`  (HttpStreamReader: buffered, seekable
    byte-stream over HTTP with a background fetch task and bounded channel)

Modelling conventions:
  - `f64` values are modelled by `F64`: an exact rational together with the
    three IEEE special values (+inf, -inf, NaN).  Arithmetic is exact (no
    rounding); `min`/`max` follow Rust's NaN-ignoring semantics; comparisons
    involving NaN are false, as in IEEE.
  - Wall-clock instants (`std::time::Instant` / `SystemTime`) are rationals,
    passed explicitly to every operation that reads the clock.
  - `Bytes` chunks are represented by their length only (a `Nat`): all
    verified properties concern byte counts and positions, never byte values.
  - The network and the spawned fetch task are an explicit environment: an
    HTTP response carries the status, header-derived lengths, and the list of
    `FetchMessage`s the background fetch loop will deliver on the bounded
    channel before the sender is dropped.
-/

set_option autoImplicit false

namespace MIU

/-- Model of Rust `f64`: an exact rational plus the IEEE special values.
Arithmetic is exact where the source performs f64 arithmetic; the verified
claims concern control flow and exact identities, not rounding. -/
inductive F64 where
  | finite (q : ℚ)
  | posInf
  | negInf
  | nan
deriving DecidableEq, Repr

instance instOfNatF64 (n : Nat) : OfNat F64 n := ⟨F64.finite n⟩

namespace F64

def isFinite : F64 → Bool
  | finite _ => true
  | _ => false

def isNaN : F64 → Bool
  | nan => true
  | _ => false

def neg : F64 → F64
  | finite q => finite (-q)
  | posInf => negInf
  | negInf => posInf
  | nan => nan

def add : F64 → F64 → F64
  | nan, _ => nan
  | _, nan => nan
  | posInf, negInf => nan
  | negInf, posInf => nan
  | posInf, _ => posInf
  | _, posInf => posInf
  | negInf, _ => negInf
  | _, negInf => negInf
  | finite a, finite b => finite (a + b)

def sub (a b : F64) : F64 := a.add b.neg

/-- Rust `f64::min`: if one argument is NaN, the other is returned. -/
def fmin : F64 → F64 → F64
  | nan, b => b
  | a, nan => a
  | negInf, _ => negInf
  | _, negInf => negInf
  | posInf, b => b
  | a, posInf => a
  | finite a, finite b => finite (min a b)

/-- Rust `f64::max`: if one argument is NaN, the other is returned. -/
def fmax : F64 → F64 → F64
  | nan, b => b
  | a, nan => a
  | posInf, _ => posInf
  | _, posInf => posInf
  | negInf, b => b
  | a, negInf => a
  | finite a, finite b => finite (max a b)

/-- IEEE `<=`: any comparison involving NaN is false. -/
def fle : F64 → F64 → Bool
  | nan, _ => false
  | _, nan => false
  | negInf, _ => true
  | _, negInf => false
  | _, posInf => true
  | posInf, _ => false
  | finite a, finite b => decide (a ≤ b)

/-- IEEE `<`: any comparison involving NaN is false. -/
def flt : F64 → F64 → Bool
  | nan, _ => false
  | _, nan => false
  | _, negInf => false
  | negInf, _ => true
  | posInf, _ => false
  | _, posInf => true
  | finite a, finite b => decide (a < b)

/-- Rust `as u64` cast: NaN and negatives go to 0, the value is truncated,
and values beyond `u64::MAX` saturate. -/
def asU64 (x : F64) : Nat :=
  match x with
  | finite q => if q < 0 then 0 else min q.floor.toNat (2 ^ 64 - 1)
  | posInf => 2 ^ 64 - 1
  | negInf => 0
  | nan => 0

end F64

/-! ## state.rs -/

/-- `PlaybackStatus` from state.rs. -/
inductive PlaybackStatus where
  | playing
  | paused
  | stopped
deriving DecidableEq, Repr

/-- `PlaybackStatus::from_str`: trims, lowercases, and maps unknown strings
to `Stopped`. -/
def PlaybackStatus.from_str (s : String) : PlaybackStatus :=
  match s.trim.toLower with
  | "playing" => .playing
  | "paused" => .paused
  | _ => .stopped

/-- `RequestedBy` from state.rs. -/
structure RequestedBy where
  id : String
  username : String
  avatar : Option String
deriving DecidableEq, Repr

/-- `Track` from state.rs. -/
structure Track where
  youtube_id : String
  title : String
  duration : F64
  thumbnail : Option String
  requested_by : Option RequestedBy
  channel_title : Option String
  requested_at : Option String
  is_autoplay : Option Bool
deriving DecidableEq, Repr

/-- `str::trim_end_matches('/')`. -/
def rstripSlashes (s : String) : String :=
  String.mk ((s.toList.reverse.dropWhile (fun c => c = '/')).reverse)

/-- `TrackView` from state.rs. -/
structure TrackView where
  youtube_id : String
  title : String
  duration : F64
  thumbnail : Option String
  album_art_url : Option String
  requested_by : Option RequestedBy
  requested_at : Option String
  is_autoplay : Bool
  channel_title : Option String
deriving DecidableEq, Repr

/-- `Track::as_view`. -/
def Track.as_view (t : Track) (server_url : Option String) : TrackView :=
  let fromServer := server_url.map (fun base =>
    rstripSlashes base ++ "/backend/api/albumart/" ++ t.youtube_id)
  let album_art_url :=
    match fromServer with
    | some u => some u
    | none => (t.thumbnail.map String.trim).filter (fun s => ¬ s.isEmpty)
  { youtube_id := t.youtube_id
    title := t.title
    duration := t.duration
    thumbnail := t.thumbnail
    album_art_url := album_art_url
    requested_by := t.requested_by
    requested_at := t.requested_at
    is_autoplay := t.is_autoplay.getD false
    channel_title := t.channel_title }

/-- `PlayerSnapshot` from state.rs. -/
structure PlayerSnapshot where
  connected : Bool
  server_url : Option String
  stream_url : Option String
  player_status : PlaybackStatus
  server_status : PlaybackStatus
  is_playing : Bool
  user_paused : Bool
  position : F64
  duration : F64
  volume : ℚ
  current_track : Option TrackView
  queue : List TrackView
  last_sync_timestamp : Option Int
deriving DecidableEq, Repr

/-- `AppState` from state.rs.  `Instant` and `SystemTime` values are
rationals (seconds); clock reads are explicit parameters. -/
structure AppState where
  server_url : Option String
  backend_url : Option String
  stream_url : Option String
  current_track : Option Track
  queue : List Track
  server_status : PlaybackStatus
  player_status : PlaybackStatus
  volume : ℚ
  user_paused : Bool
  synced_position : F64
  track_duration : F64
  last_sync_instant : Option ℚ
  last_sync_wallclock : Option ℚ
  last_track_id : Option String
deriving DecidableEq, Repr

namespace AppState

/-- `AppState::new_with_volume`. -/
def new_with_volume (volume : ℚ) : AppState :=
  { server_url := none
    stream_url := none
    current_track := none
    queue := []
    server_status := .stopped
    player_status := .stopped
    volume := min (max volume 0) 1
    user_paused := false
    synced_position := F64.finite 0
    track_duration := F64.finite 0
    last_sync_instant := none
    last_sync_wallclock := none
    last_track_id := none
    backend_url := none }

/-- `AppState::new`. -/
def new : AppState := new_with_volume (4 / 5)

/-- `str::strip_suffix("/backend")`. -/
def strip_backend_suffix (s : String) : Option String :=
  if s.endsWith "/backend" then some (s.dropRight 8) else none

/-- `AppState::set_server_url`. -/
def set_server_url (s : AppState) (url : String) : AppState :=
  let trimmed := rstripSlashes url.trim
  if trimmed = "" then s
  else
    let pair :=
      match strip_backend_suffix trimmed with
      | some stripped =>
          let cleaned_root := rstripSlashes stripped
          if cleaned_root = "" then (trimmed, trimmed) else (cleaned_root, trimmed)
      | none => (trimmed, trimmed ++ "/backend")
    let root := rstripSlashes pair.1
    let backend_clean := rstripSlashes pair.2
    { s with stream_url := some (backend_clean ++ "/api/music/stream")
             server_url := some root
             backend_url := some backend_clean }

/-- `AppState::update_server_status`. -/
def update_server_status (s : AppState) (status : String) : AppState :=
  { s with server_status := PlaybackStatus.from_str status }

/-- `AppState::update_player_status`. -/
def update_player_status (s : AppState) (status : PlaybackStatus) : AppState :=
  { s with player_status := status }

/-- `AppState::set_user_paused`. -/
def set_user_paused (s : AppState) (paused : Bool) : AppState :=
  if paused then
    { s with user_paused := paused, player_status := .paused }
  else
    { s with user_paused := paused }

/-- `AppState::update_volume`. -/
def update_volume (s : AppState) (volume : ℚ) : AppState :=
  { s with volume := min (max volume 0) 1 }

/-- `AppState::update_current_track`: returns the change flag together with
the updated state. -/
def update_current_track (s : AppState) (track : Option Track) :
    Bool × AppState :=
  let changed :=
    match s.current_track, track with
    | some current, some next => current.youtube_id ≠ next.youtube_id
    | none, some next => some next.youtube_id ≠ s.last_track_id
    | some _, none => true
    | none, none => false
  let last_track_id :=
    match track with
    | some t => some t.youtube_id
    | none => s.last_track_id
  (changed, { s with current_track := track, last_track_id := last_track_id })

/-- `AppState::update_queue`. -/
def update_queue (s : AppState) (queue : List Track) : AppState :=
  { s with queue := queue }

/-- `AppState::update_sync`.  `now_i`/`now_w` are the ambient
`Instant::now()` / `SystemTime::now()` reads. -/
def update_sync (s : AppState) (position : F64) (duration : Option F64)
    (now_i now_w : ℚ) : AppState :=
  let s := { s with synced_position := position.fmax (F64.finite 0) }
  let s :=
    match duration with
    | some dur => { s with track_duration := dur.fmax (F64.finite 0) }
    | none => s
  { s with last_sync_instant := some now_i, last_sync_wallclock := some now_w }

/-- `AppState::prepare_sync_preview`. -/
def prepare_sync_preview (s : AppState) (position : F64)
    (duration : Option F64) : AppState :=
  let s := { s with synced_position := position.fmax (F64.finite 0) }
  let s :=
    match duration with
    | some dur => { s with track_duration := dur.fmax (F64.finite 0) }
    | none => s
  { s with last_sync_instant := none, last_sync_wallclock := none }

/-- `AppState::clear_sync`. -/
def clear_sync (s : AppState) : AppState :=
  { s with synced_position := F64.finite 0
           track_duration := F64.finite 0
           last_sync_instant := none
           last_sync_wallclock := none }

/-- `AppState::computed_position`.  `now` is the ambient `Instant::now()`
read; `Instant` subtraction saturates at zero. -/
def computed_position (s : AppState) (now : ℚ) : F64 :=
  if s.user_paused ∨ s.player_status ≠ .playing then
    s.synced_position.fmin s.track_duration
  else
    match s.last_sync_instant with
    | some last_sync =>
        let elapsed := F64.finite (max (now - last_sync) 0)
        (s.synced_position.add elapsed).fmin s.track_duration
    | none => s.synced_position.fmin s.track_duration

/-- `AppState::duration`. -/
def duration (s : AppState) : F64 := s.track_duration

/-- The un-clamped clock read of `computed_position`: the anchor position,
extrapolated by elapsed wall-clock time when playing, not user-paused, and
an anchor instant exists.  `computed_position` is this value clamped with
`fmin` by `track_duration`. -/
def raw_position (s : AppState) (now : ℚ) : F64 :=
  if s.user_paused ∨ s.player_status ≠ .playing then s.synced_position
  else
    match s.last_sync_instant with
    | some last_sync => s.synced_position.add (F64.finite (max (now - last_sync) 0))
    | none => s.synced_position

/-- `AppState::last_sync_timestamp` (epoch milliseconds). -/
def last_sync_timestamp (s : AppState) : Option Int :=
  s.last_sync_wallclock.map (fun t => (t * 1000).floor)

/-- `AppState::snapshot`.  `now` is the ambient `Instant::now()` read used
by `computed_position`. -/
def snapshot (s : AppState) (now : ℚ) : PlayerSnapshot :=
  { connected := s.server_url.isSome
    server_url := s.server_url
    stream_url := s.stream_url
    player_status := s.player_status
    server_status := s.server_status
    is_playing := s.player_status = .playing
    user_paused := s.user_paused
    position := s.computed_position now
    duration := s.duration
    volume := s.volume
    current_track := s.current_track.map (fun t => t.as_view s.server_url)
    queue := s.queue.map (fun t => t.as_view s.server_url)
    last_sync_timestamp := s.last_sync_timestamp }

end AppState

/-- A value that is a nonnegative finite rational or +inf (never NaN): the
shape produced by the `position.max(0.0)` clamp in `update_sync`,
`prepare_sync_preview` and `clear_sync`. -/
def F64.nonneg_or_inf (x : F64) : Prop :=
  (∃ q : ℚ, 0 ≤ q ∧ x = F64.finite q) ∨ x = F64.posInf

/-- Invariant of the clock fields: `synced_position` and `track_duration`
are nonnegative-or-infinite (never NaN, never negative).  These fields are
written only by `update_sync`, `prepare_sync_preview` and `clear_sync`,
each of which clamps with `max(0.0)`. -/
def AppState.SyncInv (s : AppState) : Prop :=
  s.synced_position.nonneg_or_inf ∧ s.track_duration.nonneg_or_inf

/-! ## server.rs -/

/-- `StateEventPayload` from server.rs. -/
structure StateEventPayload where
  status : Option String
  current_track : Option Track
  queue : List Track
  position : Option F64
deriving DecidableEq, Repr

/-- `SyncPlayEventPayload` from server.rs. -/
structure SyncPlayEventPayload where
  track_id : Option String
  position : Option F64
  server_time : Option F64
  play_at : Option F64
deriving DecidableEq, Repr

/-- Observable side effects of the server-event handlers: audio commands,
snapshot emissions, and spawned tasks.  MPRIS updates (Linux-only UI
mirroring, behind `cfg(target_os = "linux")`) are not modelled. -/
inductive Action where
  | audioStop
  | emit (snapshot : PlayerSnapshot)
  | updateFromSse (position : F64) (latency : Option F64)
  | prepareTransition (next_stream_url : String)
  | spawnSyncPlayNow
  | play (url : String) (position : F64) (duration : Option F64)
deriving DecidableEq, Repr

/-- How `handle_sync_play_event` ends: no restart, an inline call of
`sync_play_now`, or a spawned task that sleeps `sleep_ms` milliseconds and
then calls `sync_play_now` on whatever shared state holds at fire time. -/
inductive RestartDecision where
  | noRestart
  | immediate
  | scheduledAfter (sleep_ms : Nat)
deriving DecidableEq, Repr

namespace ServerClient

/-- The delay computation in `handle_sync_play_event` (server.rs lines
460-479): `server_buffer - elapsed_since_received - estimated_latency`,
with any non-finite result clamped to 0. -/
def time_until_play (play_at server_time received_time_ms current_time : F64) :
    F64 :=
  let estimated_latency : F64 := 50
  let server_buffer := play_at.sub server_time
  let elapsed_since_received := current_time.sub received_time_ms
  let t := (server_buffer.sub elapsed_since_received).sub estimated_latency
  if t.isFinite then t else 0

/-- Ambient clock reads made during `handle_sync_play_event`. -/
structure SyncPlayEnv where
  now_ms : F64
  now_instant : ℚ
  now_wallclock : ℚ
deriving Repr

/-- `ServerClient::handle_sync_play_event` (server.rs lines 375-507).
Returns the updated shared state, the emitted side effects, and how the
restart is dispatched.  The inline (`immediate`) and spawned
(`scheduledAfter`) continuations are `sync_play_now` / `scheduled_fire`
below. -/
def handle_sync_play_event (s : AppState) (data : SyncPlayEventPayload)
    (received_time_ms : F64) (env : SyncPlayEnv) :
    AppState × List Action × RestartDecision :=
  match data.track_id with
  | none => (s, [], .noRestart)
  | some id =>
    if id = "" then (s, [], .noRestart) else
    let track_id := id
    let position := data.position.getD 0
    let server_time := data.server_time.getD received_time_ms
    let play_at := data.play_at.getD received_time_ms
    let metadata_ready :=
      match s.current_track with
      | some track => track.youtube_id == track_id
      | none => false
    let (s, acts) :=
      if metadata_ready then (s, ([] : List Action)) else
        let placeholder : Track :=
          { youtube_id := track_id
            title := "Loading track"
            duration := 0
            thumbnail := none
            requested_by := none
            channel_title := none
            requested_at := none
            is_autoplay := none }
        let s := (s.update_current_track (some placeholder)).2
        let s := s.clear_sync
        (s, [Action.emit (s.snapshot env.now_instant)])
    let dur := s.current_track.map Track.duration
    let s := s.update_sync position dur env.now_instant env.now_wallclock
    if s.user_paused then (s, acts, .noRestart)
    else
      let needs_restart :=
        match s.current_track with
        | some current =>
            if current.youtube_id = track_id then
              decide (s.player_status ≠ .playing)
            else true
        | none => true
      if needs_restart then
        let t := time_until_play play_at server_time received_time_ms env.now_ms
        let acts := acts ++ [Action.updateFromSse position (some 50)]
        if t.fle 0 then (s, acts, .immediate)
        else (s, acts, .scheduledAfter t.asU64)
      else (s, acts, .noRestart)

/-- Environment of one `sync_play_now` call: ambient clock reads, the
cache-busting timestamp, and the outcome of `audio_manager.play_from`. -/
structure PlayEnv where
  now_instant : ℚ
  now_wallclock : ℚ
  ts_ms : Nat
  play_result : Except String Unit
deriving Repr

/-- `ServerClient::sync_play_now` (server.rs lines 509-641): the restart
procedure.  Returns the surfaced result, the updated shared state, and the
side effects in program order. -/
def sync_play_now (s : AppState) (env : PlayEnv) :
    Except String Unit × AppState × List Action :=
  let acts : List Action := [Action.audioStop]
  match s.current_track with
  | none =>
      (.error "No current track for sync_play - SSE state event missing?",
       s, acts)
  | some _ =>
    match s.stream_url with
    | none => (.error "Server stream URL not configured", s, acts)
    | some stream_url =>
      let playback_position := s.computed_position env.now_instant
      let dur := s.duration
      let s := s.update_player_status .playing
      let s := s.set_user_paused false
      let duration_opt :=
        if dur.isFinite ∧ ((0 : F64).flt dur) then some dur else none
      let full_stream_url := stream_url ++ "?ts=" ++ toString env.ts_ms
      let s := s.prepare_sync_preview playback_position duration_opt
      let acts := acts ++ [Action.emit (s.snapshot env.now_instant)]
      let acts := acts ++ [Action.play full_stream_url playback_position duration_opt]
      match env.play_result with
      | .error play_err =>
          let s := s.update_player_status .stopped
          let s := s.clear_sync
          (.error play_err, s, acts ++ [Action.emit (s.snapshot env.now_instant)])
      | .ok _ =>
          let acts := acts ++ [Action.updateFromSse playback_position none]
          let s := s.update_player_status .playing
          let s := s.set_user_paused false
          let s := s.update_sync playback_position duration_opt
            env.now_instant env.now_wallclock
          (.ok (), s, acts ++ [Action.emit (s.snapshot env.now_instant)])

/-- The spawned sync-start task (server.rs lines 487-504): after the sleep
it calls `sync_play_now` on the shared state as it is at fire time, with no
further checks. -/
def scheduled_fire (s : AppState) (env : PlayEnv) :
    Except String Unit × AppState × List Action :=
  sync_play_now s env

/-- Ambient clock reads made during `apply_state_event`. -/
structure StateEventEnv where
  now_instant : ℚ
  now_wallclock : ℚ
deriving Repr

/-- `ServerClient::apply_state_event` (server.rs lines 261-373). -/
def apply_state_event (s : AppState) (data : StateEventPayload)
    (env : StateEventEnv) : AppState × List Action :=
  let s :=
    match data.status with
    | some status =>
        let s := s.update_server_status status
        if ¬s.user_paused ∧ s.player_status = PlaybackStatus.playing then
          s.update_player_status (PlaybackStatus.from_str status)
        else s
    | none => s
  let (track_changed, s) :=
    match data.current_track with
    | some track => s.update_current_track (some track)
    | none =>
        if s.current_track.isSome then
          let s := (s.update_current_track none).2
          (true, s.clear_sync)
        else (false, s)
  let queue_for_transition := data.queue
  let s := s.update_queue data.queue
  let (s, acts) :=
    match data.position with
    | some position =>
        let dur := s.current_track.map Track.duration
        (s.update_sync position dur env.now_instant env.now_wallclock,
         [Action.updateFromSse position none])
    | none => (s, ([] : List Action))
  let acts := acts ++ [Action.emit (s.snapshot env.now_instant)]
  if track_changed then
    let acts := acts ++
      (match queue_for_transition.head? with
       | some next =>
           [Action.prepareTransition
             ((s.backend_url.getD "") ++ "/api/music/stream?v=" ++ next.youtube_id)]
       | none => [])
    let should_start :=
      s.current_track.isSome ∧ s.player_status = PlaybackStatus.playing ∧ ¬s.user_paused
    if should_start then (s, acts ++ [Action.spawnSyncPlayNow]) else (s, acts)
  else (s, acts)

/-! ### Reconnect backoff (`run_event_loop`, server.rs lines 45-98) -/

def MAX_RECONNECT_DELAY : Nat := 30

def INITIAL_RECONNECT_DELAY : Nat := 1

/-- The delay slept with `reconnect_attempts = attempts` at the bottom of
one loop iteration:
`min(INITIAL_RECONNECT_DELAY * 2^(attempts.min(5)), MAX_RECONNECT_DELAY)`. -/
def reconnect_delay (attempts : Nat) : Nat :=
  min (INITIAL_RECONNECT_DELAY * 2 ^ (min attempts 5)) MAX_RECONNECT_DELAY

/-- How `reconnect_attempts` evolves from one connection outcome: reset to 0
on success, incremented on error. -/
def reconnect_step (attempts : Nat) (success : Bool) : Nat :=
  if success then 0 else attempts + 1

/-- The sequence of delays slept by `run_event_loop` for a sequence of
connection outcomes (`true` = connection established and closed normally,
`false` = connection error), starting from attempt counter `attempts`.
One delay is slept after every outcome, success included. -/
def reconnect_delays (attempts : Nat) : List Bool → List Nat
  | [] => []
  | outcome :: rest =>
      let a := reconnect_step attempts outcome
      reconnect_delay a :: reconnect_delays a rest

end ServerClient

/-! ## audio.rs: HttpStreamReader

The background fetch task and the bounded mpsc channel are modelled
explicitly: a `Channel` holds the messages already sitting in the channel
(`queued`) and the messages the fetch task will still send before the sender
is dropped (`future`).  `try_recv` yields a queued message, reports `empty`
while the sender is still live, and `disconnected` once everything has been
delivered and the sender is gone; `blocking_recv` additionally waits for a
future message.  An exhausted `future` with an exhausted `queued` represents
the sender having been dropped (normal termination after an Eof/Error
message, or abnormal termination without one). -/

/-- The subset of `std::io::ErrorKind` used by audio.rs. -/
inductive IoErrorKind where
  | unexpectedEof
  | invalidInput
  | unsupported
  | other
deriving DecidableEq, Repr

/-- A `std::io::Error`: kind plus message. -/
structure IoError where
  kind : IoErrorKind
  msg : String
deriving DecidableEq, Repr

/-- `FetchMessage` from audio.rs.  A chunk is represented by its length. -/
inductive FetchMessage where
  | chunk (len : Nat)
  | eofMark
  | fetchError (e : IoError)
deriving DecidableEq, Repr

/-- The bounded mpsc channel between the fetch task and the reader. -/
structure Channel where
  queued : List FetchMessage
  future : List FetchMessage
deriving DecidableEq, Repr

namespace Channel

def size (ch : Channel) : Nat := ch.queued.length + ch.future.length

inductive TryRecvResult where
  | msg (m : FetchMessage)
  | empty
  | disconnected
deriving DecidableEq, Repr

/-- `Receiver::try_recv`: a queued message if one is present; `Empty` while
the sender is still live; `Disconnected` once the channel is gone. -/
def try_recv : Channel → TryRecvResult × Channel
  | ⟨m :: q, f⟩ => (.msg m, ⟨q, f⟩)
  | ⟨[], []⟩ => (.disconnected, ⟨[], []⟩)
  | ⟨[], f⟩ => (.empty, ⟨[], f⟩)

/-- `Receiver::blocking_recv`: the next message, waiting for the fetch task
if necessary; `none` once the channel is gone. -/
def blocking_recv : Channel → Option FetchMessage × Channel
  | ⟨m :: q, f⟩ => (some m, ⟨q, f⟩)
  | ⟨[], m :: f⟩ => (some m, ⟨[], f⟩)
  | ⟨[], []⟩ => (none, ⟨[], []⟩)

end Channel

/-- An HTTP range-GET response as the fetch loop consumes it: status,
header-derived lengths, and the `FetchMessage`s the fetch loop will deliver
on the channel before the sender is dropped.  A `messages` list without a
trailing `eofMark`/`fetchError` represents abnormal termination of the
fetch task. -/
structure HttpResponse where
  status : Nat
  content_range_total : Option Nat
  content_length : Option Nat
  messages : List FetchMessage
deriving DecidableEq, Repr

/-- `StatusCode::is_success`: 2xx. -/
def is_success (status : Nat) : Bool := decide (200 ≤ status ∧ status < 300)

def PARTIAL_CONTENT : Nat := 206

/-- `total_length_from_response`: the Content-Range total, falling back to
Content-Length. -/
def total_length_from_response (r : HttpResponse) : Option Nat :=
  match r.content_range_total with
  | some t => some t
  | none => r.content_length

def U64_MAX : Nat := 2 ^ 64 - 1

def PREFETCH_CHANNEL_SIZE : Nat := 5

def MIN_BUFFER_CHUNKS : Nat := 2

/-- `HttpStreamReader` from audio.rs.  `buffer` is the length of the
currently held `Bytes`; `network_requests` is a ghost counter of HTTP
requests issued, used to state the no-network-call properties.  The
SSE-advisory fields (`last_sse_position`, `network_latency_ms`) are touched
only by advisory functions outside the verified claims and are omitted. -/
structure HttpStreamReader where
  url : String
  buffer : Nat
  buffer_pos : Nat
  position : Nat
  eof : Bool
  total_length : Option Nat
  chunk_rx : Option Channel
  chunk_buffer : List Nat
  buffer_target_position : Nat
  network_requests : Nat
deriving DecidableEq, Repr

namespace HttpStreamReader

/-- `HttpStreamReader::buffer_start`: `position.saturating_sub(buffer_pos)`
(Nat subtraction is saturating). -/
def buffer_start (s : HttpStreamReader) : Nat := s.position - s.buffer_pos

/-- The request-issuing tail of `start_stream` (audio.rs lines 97-185):
send the range GET (`resp = none` models a send failure), check the status,
update `total_length` from the headers, reset the buffer state, abort the
old fetch task, and install the fresh channel. -/
def start_stream_request (s : HttpStreamReader) (offset : Nat)
    (resp : Option HttpResponse) : Except IoError Unit × HttpStreamReader :=
  let s := { s with network_requests := s.network_requests + 1 }
  match resp with
  | none => (.error ⟨.other, "HTTP stream error"⟩, s)
  | some response =>
    if ¬(response.status = PARTIAL_CONTENT ∨ is_success response.status) then
      (.error ⟨.other, "HTTP stream responded with status"⟩, s)
    else
      let s :=
        match total_length_from_response response with
        | some total =>
            if s.total_length = none ∨ s.total_length = some 0 then
              { s with total_length := some total }
            else s
        | none =>
            if s.total_length = none then
              { s with total_length := response.content_length }
            else s
      let s := { s with position := offset, buffer := 0, buffer_pos := 0,
                        eof := false, chunk_buffer := [],
                        buffer_target_position := offset }
      (.ok (), { s with chunk_rx := some ⟨[], response.messages⟩ })

/-- `HttpStreamReader::start_stream` (audio.rs lines 74-186). -/
def start_stream (s : HttpStreamReader) (offset : Nat)
    (resp : Option HttpResponse) : Except IoError Unit × HttpStreamReader :=
  match s.total_length with
  | some total =>
      if offset > total then
        (.error ⟨.invalidInput, "Cannot open stream at offset beyond file size"⟩, s)
      else if offset = total then
        (.ok (), { s with chunk_buffer := [], position := offset, eof := true,
                          buffer := 0, buffer_pos := 0, chunk_rx := none })
      else start_stream_request s offset resp
  | none => start_stream_request s offset resp

/-- `HttpStreamReader::new` (audio.rs lines 45-68). -/
def new (url : String) (start_offset : Nat) (resp : Option HttpResponse) :
    Except IoError HttpStreamReader :=
  let reader : HttpStreamReader :=
    { url := url
      buffer := 0
      buffer_pos := 0
      position := start_offset
      eof := false
      total_length := none
      chunk_rx := none
      chunk_buffer := []
      buffer_target_position := start_offset
      network_requests := 0 }
  match start_stream reader start_offset resp with
  | (.ok _, r) => .ok r
  | (.error e, _) => .error e

/-- `HttpStreamReader::reopen_stream`. -/
def reopen_stream (s : HttpStreamReader) (offset : Nat)
    (resp : Option HttpResponse) : Except IoError Unit × HttpStreamReader :=
  start_stream s offset resp

/-- Result of the chunk-buffering while-loop of `load_next_chunk`
(audio.rs lines 244-283): the drained channel, the new `chunk_buffer`, the
new `eof` flag, and a fetch error if one was received. -/
structure FillResult where
  ch : Channel
  chunk_buffer : List Nat
  eof : Bool
  err : Option IoError
deriving DecidableEq, Repr

theorem try_recv_msg_size {ch ch1 : Channel} {m : FetchMessage}
    (h : ch.try_recv = (.msg m, ch1)) : ch1.size < ch.size := by
  obtain ⟨q, f⟩ := ch
  cases q with
  | cons a q => simp [Channel.try_recv] at h; simp [Channel.size, ← h.2]
  | nil =>
    cases f with
    | nil => simp [Channel.try_recv] at h
    | cons b f => simp [Channel.try_recv] at h

theorem blocking_recv_some_size {ch ch1 : Channel} {m : FetchMessage}
    (h : ch.blocking_recv = (some m, ch1)) : ch1.size < ch.size := by
  obtain ⟨q, f⟩ := ch
  cases q with
  | cons a q => simp [Channel.blocking_recv] at h; simp [Channel.size, ← h.2]
  | nil =>
    cases f with
    | nil => simp [Channel.blocking_recv] at h
    | cons b f => simp [Channel.blocking_recv] at h; simp [Channel.size, ← h.2]

/-- The `while self.chunk_buffer.len() < MIN_BUFFER_CHUNKS` loop of
`load_next_chunk`: `try_recv` chunks are accumulated; on `Empty` one
message is awaited with `blocking_recv` and the loop breaks after a
successful push; Eof, a fetch error, and a dead channel all set `eof`. -/
def fill_chunks (ch : Channel) (cb : List Nat) : FillResult :=
  if cb.length < MIN_BUFFER_CHUNKS then
    match h : ch.try_recv with
    | (.msg (.chunk c), ch1) =>
        if c ≠ 0 then fill_chunks ch1 (cb ++ [c]) else fill_chunks ch1 cb
    | (.msg .eofMark, ch1) => ⟨ch1, cb, true, none⟩
    | (.msg (.fetchError e), ch1) => ⟨ch1, cb, true, some e⟩
    | (.empty, _) =>
        match h2 : ch.blocking_recv with
        | (some (.chunk c), ch1) =>
            if c ≠ 0 then ⟨ch1, cb ++ [c], false, none⟩
            else fill_chunks ch1 cb
        | (some .eofMark, ch1) => ⟨ch1, cb, true, none⟩
        | (some (.fetchError e), ch1) => ⟨ch1, cb, true, some e⟩
        | (none, ch1) => ⟨ch1, cb, true, none⟩
    | (.disconnected, ch1) => ⟨ch1, cb, true, none⟩
  else ⟨ch, cb, false, none⟩
termination_by ch.size
decreasing_by
  all_goals first
    | exact try_recv_msg_size h
    | exact blocking_recv_some_size h2

/-- `HttpStreamReader::load_next_chunk` (audio.rs lines 226-297). -/
def load_next_chunk (s : HttpStreamReader) :
    Except IoError Unit × HttpStreamReader :=
  if s.eof then (.ok (), s)
  else
    match s.chunk_buffer with
    | c :: rest =>
        (.ok (), { s with buffer := c, buffer_pos := 0, chunk_buffer := rest })
    | [] =>
      match s.chunk_rx with
      | none => (.error ⟨.unexpectedEof, "Chunk receiver missing"⟩, s)
      | some rx =>
        let fr := fill_chunks rx []
        let s := { s with chunk_rx := some fr.ch, chunk_buffer := fr.chunk_buffer,
                          eof := fr.eof }
        match fr.err with
        | some e => (.error e, s)
        | none =>
          match s.chunk_buffer with
          | c :: rest =>
              (.ok (), { s with buffer := c, buffer_pos := 0, chunk_buffer := rest })
          | [] =>
            if s.eof then (.ok (), { s with buffer := 0, buffer_pos := 0 })
            else (.error ⟨.unexpectedEof, "No chunks available"⟩, s)

/-- `Read::read for HttpStreamReader` (audio.rs lines 352-378).  `buf_len`
is the length of the caller's buffer; the return value is the byte count
copied.  `position` is a u64 updated with `checked_add`. -/
def read (s : HttpStreamReader) (buf_len : Nat) :
    Except IoError Nat × HttpStreamReader :=
  let (r, s) :=
    if s.buffer_pos ≥ s.buffer then load_next_chunk s else (.ok (), s)
  match r with
  | .error e => (.error e, s)
  | .ok _ =>
    if s.buffer_pos ≥ s.buffer then (.ok 0, s)
    else
      let available := s.buffer - s.buffer_pos
      let to_copy := min buf_len available
      let s := { s with buffer_pos := s.buffer_pos + to_copy }
      if s.position + to_copy ≤ U64_MAX then
        (.ok to_copy, { s with position := s.position + to_copy })
      else (.error ⟨.other, "Stream position overflow"⟩, s)

/-- A HEAD response for `ensure_total_length`. -/
structure HeadResponse where
  status : Nat
  content_length : Option Nat
deriving DecidableEq, Repr

/-- The 1-byte range GET response for `ensure_total_length` (its status is
not checked by the source). -/
structure RangeProbeResponse where
  content_range_total : Option Nat
  content_length : Option Nat
deriving DecidableEq, Repr

/-- Environment of `ensure_total_length`: `none` models a failed send. -/
structure LengthProbeEnv where
  head : Option HeadResponse
  range : Option RangeProbeResponse
deriving DecidableEq, Repr

/-- `HttpStreamReader::ensure_total_length` (audio.rs lines 192-224). -/
def ensure_total_length (s : HttpStreamReader) (env : LengthProbeEnv) :
    Except IoError Unit × HttpStreamReader :=
  if s.total_length.isSome then (.ok (), s)
  else
    let s := { s with network_requests := s.network_requests + 1 }
    let fromHead :=
      match env.head with
      | some resp => if is_success resp.status then resp.content_length else none
      | none => none
    match fromHead with
    | some len => (.ok (), { s with total_length := some len })
    | none =>
      let s := { s with network_requests := s.network_requests + 1 }
      match env.range with
      | none => (.error ⟨.other, "request send failed"⟩, s)
      | some resp =>
        match resp.content_range_total with
        | some total => (.ok (), { s with total_length := some total })
        | none =>
          match resp.content_length with
          | some len => (.ok (), { s with total_length := some len })
          | none => (.ok (), s)

/-- `std::io::SeekFrom`. -/
inductive SeekFrom where
  | start (offset : Nat)
  | current (delta : Int)
  | fromEnd (delta : Int)
deriving DecidableEq, Repr

/-- Environment of one `seek` call: responses for the length probe
(`SeekFrom::End`) and for a cold reopen. -/
structure SeekEnv where
  probe : LengthProbeEnv
  reopen : Option HttpResponse
deriving DecidableEq, Repr

/-- The cold branch of `seek`: abort, discard and reopen at `target`. -/
def seek_cold (s : HttpStreamReader) (target : Nat) (env : SeekEnv) :
    Except IoError Nat × HttpStreamReader :=
  match reopen_stream s target env.reopen with
  | (.error e, s1) => (.error e, s1)
  | (.ok _, s1) => (.ok s1.position, s1)

/-- The local-vs-cold tail of `seek` (audio.rs lines 462-474): a target
inside the currently held buffer only moves the in-buffer cursor. -/
def seek_tail (s : HttpStreamReader) (target : Nat) (env : SeekEnv) :
    Except IoError Nat × HttpStreamReader :=
  if s.buffer ≠ 0 then
    let bs := s.buffer_start
    let be := bs + s.buffer
    if target ≥ bs ∧ target < be then
      (.ok target, { s with buffer_pos := target - bs, position := target })
    else seek_cold s target env
  else seek_cold s target env

/-- `Seek::seek for HttpStreamReader` (audio.rs lines 416-476). -/
def seek (s : HttpStreamReader) (pos : SeekFrom) (env : SeekEnv) :
    Except IoError Nat × HttpStreamReader :=
  let step : Except IoError Int × HttpStreamReader :=
    match pos with
    | .start offset => (.ok (offset : Int), s)
    | .current delta => (.ok ((s.position : Int) + delta), s)
    | .fromEnd delta =>
        match ensure_total_length s env.probe with
        | (.error e, s1) => (.error e, s1)
        | (.ok _, s1) =>
            match s1.total_length with
            | none =>
                (.error ⟨.unsupported, "Total length unknown for SeekFrom::End"⟩, s1)
            | some total => (.ok ((total : Int) + delta), s1)
  match step with
  | (.error e, s1) => (.error e, s1)
  | (.ok target, s1) =>
    if target < 0 then
      (.error ⟨.invalidInput, "Seek before start of stream"⟩, s1)
    else
      let target := target.toNat % (U64_MAX + 1)
      match s1.total_length with
      | some total =>
          if target > total then
            (.error ⟨.invalidInput, "Seek beyond end of stream"⟩, s1)
          else if target = total then
            (.ok target, { s1 with position := target, eof := true,
                                   buffer := 0, buffer_pos := 0 })
          else seek_tail s1 target env
      | none => seek_tail s1 target env

/-- Progress of the background fetch task between reader operations: one
future message is moved into the bounded channel if there is capacity. -/
def deliver (s : HttpStreamReader) : HttpStreamReader :=
  match s.chunk_rx with
  | some ⟨q, m :: f⟩ =>
      if q.length < PREFETCH_CHANNEL_SIZE then
        { s with chunk_rx := some ⟨q ++ [m], f⟩ }
      else s
  | _ => s

/-- The states of one `HttpStreamReader` reachable through its operations,
for arbitrary environments (responses, channel contents, fetch-task
progress). -/
inductive Reachable : HttpStreamReader → Prop where
  | new_ok (url : String) (off : Nat) (resp : Option HttpResponse)
      (r : HttpStreamReader) (h : new url off resp = .ok r) : Reachable r
  | read_step (s : HttpStreamReader) (n : Nat) (h : Reachable s) :
      Reachable (read s n).2
  | seek_step (s : HttpStreamReader) (pos : SeekFrom) (env : SeekEnv)
      (h : Reachable s) : Reachable (seek s pos env).2
  | deliver_step (s : HttpStreamReader) (h : Reachable s) :
      Reachable (deliver s)

/-- Structural invariant of the reader: the in-buffer cursor never passes
the end of the held buffer, prefetched chunks are nonempty (empty chunks
are filtered before being pushed), and a missing receiver only occurs in
the virtual-EOF state installed by `start_stream`. -/
def RInv (s : HttpStreamReader) : Prop :=
  s.buffer_pos ≤ s.buffer ∧
  (∀ c ∈ s.chunk_buffer, 0 < c) ∧
  (s.chunk_rx = none → s.eof = true)

/-- A fetch message the background task can actually send: the fetch loop
constructs its error messages exclusively with `ErrorKind::Other`
(audio.rs lines 155-177 and 393-414), never `UnexpectedEof`. -/
def MsgWF : FetchMessage → Prop
  | .fetchError e => e.kind ≠ .unexpectedEof
  | _ => True

/-- All messages in the reader's channel are messages the fetch loop can
send. -/
def ChanWF (s : HttpStreamReader) : Prop :=
  ∀ ch, s.chunk_rx = some ch →
    (∀ m ∈ ch.queued, MsgWF m) ∧ (∀ m ∈ ch.future, MsgWF m)

end HttpStreamReader

/-! ## Theorems -/

/-! ### C1: reconnect backoff -/

theorem reconnect_delays_append (a : Nat) (xs ys : List Bool) :
    ServerClient.reconnect_delays a (xs ++ ys) =
      ServerClient.reconnect_delays a xs ++
        ServerClient.reconnect_delays (xs.foldl ServerClient.reconnect_step a) ys := by
  induction xs generalizing a with
  | nil => simp [ServerClient.reconnect_delays]
  | cons x xs ih => simp [ServerClient.reconnect_delays, ih]

/-- C1, counterexample: the claim predicts reconnect delays 1s, 2s, 4s, 8s,
16s for five consecutive failures and a 1s delay for the first failure
after a success; the code increments the attempt counter before computing
the delay, so five consecutive failures sleep 2s, 4s, 8s, 16s, 30s, and the
first failure after a success sleeps 2s. -/
theorem C1_counterexample :
    ServerClient.reconnect_delays 0 [false, false, false, false, false] ≠
      [1, 2, 4, 8, 16] ∧
    (ServerClient.reconnect_delays 0 [true, false])[1]? ≠ some 1 ∧
    ServerClient.reconnect_delays 0 [false, false, false, false, false, false] =
      [2, 4, 8, 16, 30, 30] := by
  refine ⟨?_, ?_, ?_⟩ <;> decide

/-- C1, amended: each reconnect delay is
min(1s x 2^min(attempts, 5), 30s) with the attempt counter incremented
before the delay is computed and reset to 0 on success; six consecutive
failures from a fresh start sleep 2s, 4s, 8s, 16s, 30s, 30s; after any
successful connection the loop sleeps 1s, and the first failure after a
success sleeps 2s; from the sixth consecutive failure on, the delay is
pinned at the 30s cap. -/
theorem C1_amended_backoff :
    ServerClient.reconnect_delays 0 (List.replicate 6 false) =
      [2, 4, 8, 16, 30, 30] ∧
    (∀ (a : Nat) (pre : List Bool), ∃ ds : List Nat,
      ServerClient.reconnect_delays a (pre ++ [true, false]) = ds ++ [1, 2]) ∧
    (∀ k : Nat, ServerClient.reconnect_delay (k + 5) = 30) := by
  refine ⟨by decide, ?_, ?_⟩
  · intro a pre
    refine ⟨ServerClient.reconnect_delays a pre, ?_⟩
    rw [reconnect_delays_append]
    simp [ServerClient.reconnect_delays, ServerClient.reconnect_step,
      ServerClient.reconnect_delay, ServerClient.INITIAL_RECONNECT_DELAY,
      ServerClient.MAX_RECONNECT_DELAY]
  · intro k
    have h5 : min (k + 5) 5 = 5 := by omega
    unfold ServerClient.reconnect_delay
    rw [h5]
    decide

/-! ### C10: sync_play with an absent or empty trackId -/

/-- C10: a sync_play event whose trackId is absent or empty is a complete
no-op: the handler returns immediately with the state unchanged, no side
effects, and no restart. -/
theorem C10_empty_track_id_noop
    (s : AppState) (data : SyncPlayEventPayload) (received : F64)
    (env : ServerClient.SyncPlayEnv)
    (h : data.track_id = none ∨ data.track_id = some "") :
    ServerClient.handle_sync_play_event s data received env =
      (s, [], .noRestart) := by
  rcases h with h | h <;>
    simp [ServerClient.handle_sync_play_event, h]

theorem C10_witness :
    ServerClient.handle_sync_play_event AppState.new
        ⟨some "", some 10, none, none⟩ 0 ⟨0, 0, 0⟩ =
      (AppState.new, [], .noRestart) :=
  C10_empty_track_id_noop AppState.new ⟨some "", some 10, none, none⟩ 0 ⟨0, 0, 0⟩
    (Or.inr rfl)

/-! ### C7: sync_play delay computation -/

/-- Evaluation of the spec scenario delay: serverTime=1000, playAt=1500,
receivedAt=1050, now=1050 give 450ms. -/
theorem time_until_play_spec_value :
    ServerClient.time_until_play 1500 1000 1050 1050 = F64.finite 450 := by
  norm_num [ServerClient.time_until_play, F64.sub, F64.add, F64.neg,
    F64.isFinite, instOfNatF64]

/-- C7: for every sync_play event that reaches the delay computation
(non-empty trackId, user not paused, restart needed), the dispatched delay
is (playAt - serverTime) - (now - receivedAt) - 50ms; a non-finite delay is
clamped to 0, in which case the restart is performed immediately; and the
spec scenario serverTime=1000, playAt=1500, receivedAt=1050 evaluated at
now=1050 yields 450ms. -/
theorem C7_sync_delay :
    (∀ play_at server_time received now : F64,
      (((play_at.sub server_time).sub (now.sub received)).sub 50).isFinite = false →
      ServerClient.time_until_play play_at server_time received now = 0) ∧
    ServerClient.time_until_play 1500 1000 1050 1050 = 450 ∧
    (∀ (s : AppState) (data : SyncPlayEventPayload) (received : F64)
        (env : ServerClient.SyncPlayEnv) (tid : String),
      data.track_id = some tid → tid ≠ "" → s.user_paused = false →
      s.player_status ≠ .playing →
      (ServerClient.handle_sync_play_event s data received env).2.2 =
        (if (ServerClient.time_until_play (data.play_at.getD received)
              (data.server_time.getD received) received env.now_ms).fle 0 then
          RestartDecision.immediate
        else
          RestartDecision.scheduledAfter
            (ServerClient.time_until_play (data.play_at.getD received)
              (data.server_time.getD received) received env.now_ms).asU64)) := by
  refine ⟨?_, time_until_play_spec_value, ?_⟩
  · intro play_at server_time received now h
    simp [ServerClient.time_until_play, h]
  · intro s data received env tid h1 h2 h3 h4
    rcases hct : s.current_track with _ | tr
    · simp [ServerClient.handle_sync_play_event, h1, h2, hct,
        AppState.update_current_track, AppState.clear_sync, AppState.update_sync,
        h3, h4]
      split <;> rfl
    · by_cases hb : tr.youtube_id = tid <;>
      · simp [ServerClient.handle_sync_play_event, h1, h2, hct, hb,
          AppState.update_current_track, AppState.clear_sync, AppState.update_sync,
          h3, h4]
        split <;> rfl

theorem C7_sync_delay_witness :
    (ServerClient.handle_sync_play_event AppState.new
        ⟨some "abc", some 10, some 1000, some 1500⟩ 1050 ⟨1050, 0, 0⟩).2.2 =
      RestartDecision.scheduledAfter 450 ∧
    ServerClient.time_until_play F64.nan 0 0 0 = 0 := by
  constructor
  · have h := C7_sync_delay.2.2 AppState.new
      ⟨some "abc", some 10, some 1000, some 1500⟩ 1050 ⟨1050, 0, 0⟩ "abc"
      rfl (by decide) rfl (by decide)
    dsimp only [Option.getD_some] at h
    rw [time_until_play_spec_value] at h
    rw [h]
    decide
  · exact C7_sync_delay.1 F64.nan 0 0 0 (by decide)

/-! ### C6: computed_position clamping -/

theorem fmax_zero_nonneg (x : F64) : (x.fmax (F64.finite 0)).nonneg_or_inf := by
  cases x with
  | finite q => exact Or.inl ⟨max q 0, le_max_right q 0, rfl⟩
  | posInf => exact Or.inr rfl
  | negInf => exact Or.inl ⟨0, le_refl 0, rfl⟩
  | nan => exact Or.inl ⟨0, le_refl 0, rfl⟩

theorem syncInv_new_with_volume (v : ℚ) : (AppState.new_with_volume v).SyncInv :=
  ⟨Or.inl ⟨0, le_refl 0, rfl⟩, Or.inl ⟨0, le_refl 0, rfl⟩⟩

theorem syncInv_update_sync (s : AppState) (pos : F64) (dur : Option F64)
    (ni nw : ℚ) (h : s.SyncInv) : (s.update_sync pos dur ni nw).SyncInv := by
  unfold AppState.update_sync
  cases dur with
  | none => exact ⟨fmax_zero_nonneg pos, h.2⟩
  | some d => exact ⟨fmax_zero_nonneg pos, fmax_zero_nonneg d⟩

theorem syncInv_prepare_sync_preview (s : AppState) (pos : F64)
    (dur : Option F64) (h : s.SyncInv) :
    (s.prepare_sync_preview pos dur).SyncInv := by
  unfold AppState.prepare_sync_preview
  cases dur with
  | none => exact ⟨fmax_zero_nonneg pos, h.2⟩
  | some d => exact ⟨fmax_zero_nonneg pos, fmax_zero_nonneg d⟩

theorem syncInv_clear_sync (s : AppState) : s.clear_sync.SyncInv :=
  ⟨Or.inl ⟨0, le_refl 0, rfl⟩, Or.inl ⟨0, le_refl 0, rfl⟩⟩

theorem computed_position_eq_fmin (s : AppState) (now : ℚ) :
    s.computed_position now = (s.raw_position now).fmin s.track_duration := by
  unfold AppState.computed_position AppState.raw_position
  split
  · rfl
  · split <;> rfl

theorem raw_position_nonneg (s : AppState) (now : ℚ)
    (h : s.synced_position.nonneg_or_inf) :
    (s.raw_position now).nonneg_or_inf := by
  unfold AppState.raw_position
  split
  · exact h
  · split
    · rcases h with ⟨q, hq, hsq⟩ | hsq <;> rw [hsq]
      · exact Or.inl ⟨q + max (now - _) 0, by positivity, rfl⟩
      · exact Or.inr rfl
    · exact h

theorem fmin_zero_of_nonneg (x : F64) (h : x.nonneg_or_inf) :
    x.fmin (F64.finite 0) = F64.finite 0 := by
  rcases h with ⟨q, hq, hx⟩ | hx <;> rw [hx]
  · simp [F64.fmin, min_eq_right hq]
  · rfl

theorem fmin_finite_of_nonneg (x : F64) (d : ℚ) (hx : x.nonneg_or_inf)
    (hd : 0 ≤ d) :
    ∃ r : ℚ, x.fmin (F64.finite d) = F64.finite r ∧ 0 ≤ r ∧ r ≤ d := by
  rcases hx with ⟨q, hq, hxe⟩ | hxe <;> rw [hxe]
  · exact ⟨min q d, rfl, le_min hq hd, min_le_right q d⟩
  · exact ⟨d, rfl, hd, le_refl d⟩

theorem fmin_posInf_of_nonneg (x : F64) (hx : x.nonneg_or_inf) :
    x.fmin F64.posInf = x := by
  rcases hx with ⟨q, _, hxe⟩ | hxe <;> rw [hxe] <;> rfl

/-- C6, counterexample: the claim predicts that with stored duration 0 the
clamp degenerates to max(position, 0) with no upper bound; in the code the
clamp is `position.min(duration)`, so with duration 0 every read returns 0.
Concretely, after `update_sync(5.0, None)` on a fresh state the stored
duration is 0, the anchor position is 5, and `computed_position` returns 0,
not max(5, 0) = 5. -/
theorem C6_counterexample :
    ((AppState.new_with_volume 1).update_sync 5 none 0 0).track_duration =
      F64.finite 0 ∧
    ((AppState.new_with_volume 1).update_sync 5 none 0 0).synced_position =
      F64.finite 5 ∧
    ((AppState.new_with_volume 1).update_sync 5 none 0 0).computed_position 0 =
      F64.finite 0 ∧
    ¬ (((AppState.new_with_volume 1).update_sync 5 none 0 0).computed_position 0 =
        F64.fmax
          (((AppState.new_with_volume 1).update_sync 5 none 0 0).synced_position)
          (F64.finite 0)) := by
  refine ⟨by decide, by decide, by decide, by decide⟩

/-- C6, amended: `computed_position` returns the raw clock value (anchor
position, extrapolated while playing and not user-paused) clamped from
above by `min` with the stored duration; there is no lower clamp in the
read, but the stored position is nonnegative by the write-side clamps.
Hence: a stored duration of 0 pins the result to 0 (not max(position, 0));
a stored duration of +inf leaves the raw position unclamped; a finite
stored duration d yields a value in [0, d].  The stored duration is never
NaN and never negative. -/
theorem C6_amended_position_clamp (s : AppState) (now : ℚ) (h : s.SyncInv) :
    (s.computed_position now = (s.raw_position now).fmin s.track_duration) ∧
    (s.track_duration = F64.finite 0 → s.computed_position now = F64.finite 0) ∧
    (s.track_duration = F64.posInf → s.computed_position now = s.raw_position now) ∧
    (∀ d : ℚ, s.track_duration = F64.finite d →
      ∃ r : ℚ, s.computed_position now = F64.finite r ∧ 0 ≤ r ∧ r ≤ d) := by
  obtain ⟨hs, hd⟩ := h
  have hraw := raw_position_nonneg s now hs
  refine ⟨computed_position_eq_fmin s now, ?_, ?_, ?_⟩
  · intro h0
    rw [computed_position_eq_fmin, h0]
    exact fmin_zero_of_nonneg _ hraw
  · intro hinf
    rw [computed_position_eq_fmin, hinf]
    exact fmin_posInf_of_nonneg _ hraw
  · intro d hdd
    have hd0 : 0 ≤ d := by
      rcases hd with ⟨q, hq, he⟩ | he
      · rw [hdd] at he
        cases he
        exact hq
      · rw [hdd] at he
        cases he
    rw [computed_position_eq_fmin, hdd]
    exact fmin_finite_of_nonneg _ d hraw hd0

theorem C6_amended_position_clamp_witness :
    ((AppState.new_with_volume 1).update_sync 7 none 0 0).computed_position 3 =
      F64.finite 0 :=
  (C6_amended_position_clamp ((AppState.new_with_volume 1).update_sync 7 none 0 0) 3
    (syncInv_update_sync _ 7 none 0 0 (syncInv_new_with_volume 1))).2.1
    (by decide)

/-! ### C5: track-change detection and restart trigger -/

/-- C5, counterexample: the claim says the transition from no current track
to some track is always flagged as a track change.  In the code the
none-to-some case is flagged only when the new id differs from
`last_track_id`.  Concretely: set track "a", clear it, then receive "a"
again: `current_track` is none, yet `update_current_track(Some "a")`
returns false. -/
theorem C5_counterexample :
    ((((AppState.new_with_volume 1).update_current_track
        (some ⟨"a", "A", 0, none, none, none, none, none⟩)).2.update_current_track
        none).2).current_track = none ∧
    (((((AppState.new_with_volume 1).update_current_track
        (some ⟨"a", "A", 0, none, none, none, none, none⟩)).2.update_current_track
        none).2).update_current_track
        (some ⟨"a", "A", 0, none, none, none, none, none⟩)).1 = false := by
  refine ⟨by decide, by decide⟩

set_option maxHeartbeats 1600000 in
/-- C5, amended: a state event spawns an immediate restart exactly when the
track-change flag is set and, on the post-event state, a track is present,
the status is Playing, and the user has not paused.  The flag is set when:
both old and new tracks are present with different ids; a present track is
cleared; or a track appears while none is current and its id differs from
the last remembered track id (so a track re-appearing after a clear with
the same id is not flagged, and a cleared track never triggers the
restart because a track must be present). -/
theorem C5_amended_track_change_flag (s : AppState) (data : StateEventPayload)
    (env : ServerClient.StateEventEnv) :
    Action.spawnSyncPlayNow ∈ (ServerClient.apply_state_event s data env).2 ↔
      ((match data.current_track with
        | some next =>
            match s.current_track with
            | some current => current.youtube_id ≠ next.youtube_id
            | none => some next.youtube_id ≠ s.last_track_id
        | none => s.current_track.isSome = true) ∧
       (ServerClient.apply_state_event s data env).1.current_track.isSome = true ∧
       (ServerClient.apply_state_event s data env).1.player_status = .playing ∧
       (ServerClient.apply_state_event s data env).1.user_paused = false) := by
  obtain ⟨st, ct, q, pos⟩ := data
  rcases st with _ | st <;> rcases ct with _ | tr <;> rcases pos with _ | p <;>
    rcases q with _ | ⟨qh, qt⟩ <;>
    rcases hcur : s.current_track with _ | cur <;>
    simp [ServerClient.apply_state_event, AppState.update_current_track,
      AppState.update_queue, AppState.update_sync, AppState.clear_sync,
      AppState.update_server_status, AppState.update_player_status, hcur] <;>
    split_ifs <;>
    simp_all

/-! ### C2: no fire-time re-validation of the scheduled restart -/

/-- C2, counterexample: the claim says a scheduled restart re-validates the
needsRestart conditions at fire time, so a user pause during the delay
cancels it and no restart happens while paused.  In the code the spawned
task (server.rs lines 487-504) only sleeps and then calls `sync_play_now`,
which performs the restart unconditionally — it even clears the user-pause
flag.  Concretely: on a state paused by the user during the delay, the
scheduled fire succeeds, issues a play command, sets status Playing and
resets `user_paused`. -/
theorem C2_counterexample :
    let paused := (({ AppState.new_with_volume 1 with
        stream_url := some "http://s/backend/api/music/stream" }).update_current_track
        (some ⟨"abc", "T", 0, none, none, none, none, none⟩)).2.set_user_paused true
    ServerClient.scheduled_fire = ServerClient.sync_play_now ∧
    paused.user_paused = true ∧
    (ServerClient.scheduled_fire paused ⟨0, 0, 7, Except.ok ()⟩).1 = Except.ok () ∧
    (ServerClient.scheduled_fire paused ⟨0, 0, 7, Except.ok ()⟩).2.1.player_status =
      PlaybackStatus.playing ∧
    (ServerClient.scheduled_fire paused ⟨0, 0, 7, Except.ok ()⟩).2.1.user_paused =
      false ∧
    ((ServerClient.scheduled_fire paused ⟨0, 0, 7, Except.ok ()⟩).2.2.any fun a =>
      match a with
      | Action.play _ _ _ => true
      | _ => false) = true := by
  exact ⟨rfl, by decide, by rfl, by decide, by decide, by decide⟩

/-- C2, amended: the scheduled restart fires unconditionally.  The spawned
task is exactly a sleep followed by `sync_play_now` on whatever state holds
at fire time; neither needsRestart nor the user-pause flag is re-checked,
so a user pause or a superseding sync event during the delay does not
cancel the stale scheduled start — whenever a track and stream URL are
present and audio start succeeds, the fire performs the restart, sets
status Playing and clears the user-pause flag. -/
theorem C2_amended_unconditional_fire :
    (∀ (s : AppState) (env : ServerClient.PlayEnv),
      ServerClient.scheduled_fire s env = ServerClient.sync_play_now s env) ∧
    (∀ (s : AppState) (env : ServerClient.PlayEnv) (tr : Track) (u : String),
      s.current_track = some tr → s.stream_url = some u →
      env.play_result = .ok () →
      (ServerClient.scheduled_fire s env).1 = .ok () ∧
      (ServerClient.scheduled_fire s env).2.1.player_status = .playing ∧
      (ServerClient.scheduled_fire s env).2.1.user_paused = false) := by
  refine ⟨fun s env => rfl, ?_⟩
  intro s env tr u h1 h2 h3
  by_cases hc : (s.duration.isFinite = true ∧ F64.flt 0 s.duration = true) <;>
    simp [ServerClient.scheduled_fire, ServerClient.sync_play_now, h1, h2, h3, hc,
      AppState.update_player_status, AppState.set_user_paused,
      AppState.prepare_sync_preview, AppState.update_sync]

theorem C2_amended_unconditional_fire_witness :
    (ServerClient.scheduled_fire
      ((({ AppState.new_with_volume 1 with stream_url := some "u" }).update_current_track
        (some ⟨"t1", "T", 0, none, none, none, none, none⟩)).2.set_user_paused true)
      ⟨0, 0, 1, Except.ok ()⟩).2.1.player_status = .playing :=
  (C2_amended_unconditional_fire.2
    ((({ AppState.new_with_volume 1 with stream_url := some "u" }).update_current_track
      (some ⟨"t1", "T", 0, none, none, none, none, none⟩)).2.set_user_paused true)
    ⟨0, 0, 1, Except.ok ()⟩ ⟨"t1", "T", 0, none, none, none, none, none⟩ "u"
    (by decide) (by decide) rfl).2.1

/-! ### C9: failed restart cleanup -/

/-- C9, counterexample: the claim says every failing restart attempt sets
status Stopped, clears the anchor and emits a stopped snapshot.  A restart
attempt that fails before the audio start — here: no current track, reached
from `resume_playback` — returns the error with the shared state untouched
(the nonzero anchor position survives) and emits no snapshot at all; its
only side effect is stopping the audio sink. -/
theorem C9_counterexample :
    let s9 := ({ AppState.new_with_volume 1 with
      stream_url := some "u" }).update_sync 5 none 0 0
    (ServerClient.sync_play_now s9 ⟨0, 0, 1, Except.ok ()⟩).1 =
      Except.error "No current track for sync_play - SSE state event missing?" ∧
    (ServerClient.sync_play_now s9 ⟨0, 0, 1, Except.ok ()⟩).2.1 = s9 ∧
    (ServerClient.sync_play_now s9 ⟨0, 0, 1, Except.ok ()⟩).2.2 =
      [Action.audioStop] ∧
    s9.synced_position = F64.finite 5 := by
  exact ⟨by rfl, by decide, by decide, by decide⟩

/-- C9, amended: for every restart attempt whose audio start fails (the
play operation returns an error), the restart procedure sets the playback
status to Stopped, clears the position anchor (synced position, duration
and sync instants reset), emits a snapshot reflecting the stopped state
(status Stopped, not playing, position 0), and surfaces the error to the
caller.  A restart attempt that aborts earlier (no current track or no
configured stream URL) surfaces an error without touching status, anchor,
or emitting a snapshot. -/
theorem C9_amended_failed_restart (s : AppState) (env : ServerClient.PlayEnv)
    (tr : Track) (u : String) (e : String)
    (h1 : s.current_track = some tr) (h2 : s.stream_url = some u)
    (h3 : env.play_result = .error e) :
    (ServerClient.sync_play_now s env).1 = .error e ∧
    (ServerClient.sync_play_now s env).2.1.player_status = .stopped ∧
    (ServerClient.sync_play_now s env).2.1.synced_position = F64.finite 0 ∧
    (ServerClient.sync_play_now s env).2.1.track_duration = F64.finite 0 ∧
    (ServerClient.sync_play_now s env).2.1.last_sync_instant = none ∧
    (ServerClient.sync_play_now s env).2.1.last_sync_wallclock = none ∧
    Action.emit ((ServerClient.sync_play_now s env).2.1.snapshot env.now_instant) ∈
      (ServerClient.sync_play_now s env).2.2 ∧
    ((ServerClient.sync_play_now s env).2.1.snapshot env.now_instant).player_status =
      .stopped ∧
    ((ServerClient.sync_play_now s env).2.1.snapshot env.now_instant).is_playing =
      false ∧
    ((ServerClient.sync_play_now s env).2.1.snapshot env.now_instant).position =
      F64.finite 0 := by
  by_cases hc : (s.duration.isFinite = true ∧ F64.flt 0 s.duration = true) <;>
    simp [ServerClient.sync_play_now, h1, h2, h3, hc, AppState.update_player_status,
      AppState.set_user_paused, AppState.prepare_sync_preview, AppState.clear_sync,
      AppState.snapshot, AppState.computed_position, AppState.duration,
      AppState.last_sync_timestamp, F64.fmin]

theorem C9_amended_failed_restart_witness :
    (ServerClient.sync_play_now
      ((({ AppState.new_with_volume 1 with stream_url := some "su" }).update_current_track
        (some ⟨"t2", "T", 0, none, none, none, none, none⟩)).2)
      ⟨0, 0, 1, Except.error "boom"⟩).1 = Except.error "boom" ∧
    (ServerClient.sync_play_now
      ((({ AppState.new_with_volume 1 with stream_url := some "su" }).update_current_track
        (some ⟨"t2", "T", 0, none, none, none, none, none⟩)).2)
      ⟨0, 0, 1, Except.error "boom"⟩).2.1.player_status = .stopped :=
  ⟨(C9_amended_failed_restart _ _ ⟨"t2", "T", 0, none, none, none, none, none⟩
      "su" "boom" (by decide) (by decide) rfl).1,
   (C9_amended_failed_restart _ _ ⟨"t2", "T", 0, none, none, none, none, none⟩
      "su" "boom" (by decide) (by decide) rfl).2.1⟩

/-! ### Channel and fill-loop lemmas (shared by C3 and C4) -/

namespace HttpStreamReader

theorem try_recv_parts {ch ch1 : Channel} {m : FetchMessage}
    (h : ch.try_recv = (.msg m, ch1)) :
    m ∈ ch.queued ∧ (∀ x ∈ ch1.queued, x ∈ ch.queued) ∧
      (∀ x ∈ ch1.future, x ∈ ch.future) := by
  obtain ⟨q, f⟩ := ch
  cases q with
  | cons a q =>
    simp [Channel.try_recv] at h
    obtain ⟨hm, hch⟩ := h
    subst hm
    cases hch
    exact ⟨List.mem_cons_self a q, fun x hx => List.mem_cons_of_mem a hx,
      fun x hx => hx⟩
  | nil =>
    cases f with
    | nil => simp [Channel.try_recv] at h
    | cons b f => simp [Channel.try_recv] at h

theorem blocking_recv_parts {ch ch1 : Channel} {m : FetchMessage}
    (h : ch.blocking_recv = (some m, ch1)) :
    (m ∈ ch.queued ∨ m ∈ ch.future) ∧ (∀ x ∈ ch1.queued, x ∈ ch.queued) ∧
      (∀ x ∈ ch1.future, x ∈ ch.future) := by
  obtain ⟨q, f⟩ := ch
  cases q with
  | cons a q =>
    simp [Channel.blocking_recv] at h
    obtain ⟨hm, hch⟩ := h
    subst hm
    cases hch
    exact ⟨Or.inl (List.mem_cons_self a q),
      fun x hx => List.mem_cons_of_mem a hx, fun x hx => hx⟩
  | nil =>
    cases f with
    | nil => simp [Channel.blocking_recv] at h
    | cons b f =>
      simp [Channel.blocking_recv] at h
      obtain ⟨hm, hch⟩ := h
      subst hm
      cases hch
      exact ⟨Or.inr (List.mem_cons_self b f), fun x hx => by simp at hx,
        fun x hx => List.mem_cons_of_mem b hx⟩

/-- Combined facts about the chunk-buffering loop: pushed chunks are
positive; a loop that ends without an error ends with a nonempty chunk
buffer or the eof flag set; a returned error was a message of the
channel. -/
theorem fill_chunks_spec : ∀ (N : Nat) (ch : Channel), ch.size ≤ N →
    ∀ cb : List Nat,
    ((∀ c ∈ cb, 0 < c) → ∀ c ∈ (fill_chunks ch cb).chunk_buffer, 0 < c) ∧
    ((fill_chunks ch cb).err = none →
      (fill_chunks ch cb).chunk_buffer ≠ [] ∨ (fill_chunks ch cb).eof = true) ∧
    (∀ e, (fill_chunks ch cb).err = some e →
      FetchMessage.fetchError e ∈ ch.queued ∨
        FetchMessage.fetchError e ∈ ch.future) := by
  intro N
  induction N with
  | zero =>
    intro ch hsz cb
    obtain ⟨q, f⟩ := ch
    simp [Channel.size] at hsz
    obtain ⟨hq, hf⟩ := hsz
    subst hq; subst hf
    by_cases hlen : cb.length < MIN_BUFFER_CHUNKS
    · rw [fill_chunks]
      simp [hlen, Channel.try_recv]
    · rw [fill_chunks]
      simp only [hlen, if_false]
      refine ⟨fun hcb => hcb, fun _ => Or.inl ?_, by simp⟩
      intro hnil
      rw [hnil] at hlen
      simp [MIN_BUFFER_CHUNKS] at hlen
  | succ N ih =>
    intro ch hsz cb
    obtain ⟨q, f⟩ := ch
    by_cases hlen : cb.length < MIN_BUFFER_CHUNKS
    · rcases q with _ | ⟨m, q⟩
      · rcases f with _ | ⟨m, f⟩
        · rw [fill_chunks]
          simp [hlen, Channel.try_recv]
        · have hsz2 : (Channel.mk [] f).size ≤ N := by
            simp [Channel.size] at hsz ⊢; omega
          rcases m with c | _ | e
          · by_cases hc : c = 0
            · rw [fill_chunks]
              simp only [hlen, if_true, Channel.try_recv, Channel.blocking_recv,
                hc, ne_eq, not_true_eq_false, if_false, ite_false]
              have hrec := ih (Channel.mk [] f) hsz2 cb
              refine ⟨hrec.1, hrec.2.1, fun e he => ?_⟩
              rcases hrec.2.2 e he with h | h
              · simp at h
              · exact Or.inr (List.mem_cons_of_mem _ h)
            · rw [fill_chunks]
              simp only [hlen, if_true, Channel.try_recv, Channel.blocking_recv,
                hc, ne_eq, not_false_eq_true, if_true, ite_true]
              refine ⟨fun hcb x hx => ?_, fun _ => Or.inl (by simp), by simp⟩
              rcases List.mem_append.1 hx with hx | hx
              · exact hcb x hx
              · simp at hx; subst hx; exact Nat.pos_of_ne_zero hc
          · rw [fill_chunks]
            simp [hlen, Channel.try_recv, Channel.blocking_recv]
          · rw [fill_chunks]
            simp [hlen, Channel.try_recv, Channel.blocking_recv]
      · have hsz2 : (Channel.mk q f).size ≤ N := by
          simp [Channel.size] at hsz ⊢; omega
        rcases m with c | _ | e
        · by_cases hc : c = 0
          · rw [fill_chunks]
            simp only [hlen, if_true, Channel.try_recv, hc, ne_eq,
              not_true_eq_false, if_false, ite_false]
            have hrec := ih (Channel.mk q f) hsz2 cb
            refine ⟨hrec.1, hrec.2.1, fun e he => ?_⟩
            rcases hrec.2.2 e he with h | h
            · exact Or.inl (List.mem_cons_of_mem _ h)
            · exact Or.inr h
          · rw [fill_chunks]
            simp only [hlen, if_true, Channel.try_recv, hc, ne_eq,
              not_false_eq_true, if_true, ite_true]
            have hrec := ih (Channel.mk q f) hsz2 (cb ++ [c])
            refine ⟨fun hcb => hrec.1 ?_, hrec.2.1, fun e he => ?_⟩
            · intro x hx
              rcases List.mem_append.1 hx with hx | hx
              · exact hcb x hx
              · simp at hx; subst hx; exact Nat.pos_of_ne_zero hc
            · rcases hrec.2.2 e he with h | h
              · exact Or.inl (List.mem_cons_of_mem _ h)
              · exact Or.inr h
        · rw [fill_chunks]
          simp [hlen, Channel.try_recv]
        · rw [fill_chunks]
          simp [hlen, Channel.try_recv]
    · rw [fill_chunks]
      simp only [hlen, if_false]
      refine ⟨fun hcb => hcb, fun _ => Or.inl ?_, by simp⟩
      intro hnil
      rw [hnil] at hlen
      simp [MIN_BUFFER_CHUNKS] at hlen

/-- Facts about one `load_next_chunk` call from a state satisfying `RInv`:
the invariant is preserved; a successful load that leaves the buffer
exhausted has set the eof flag; a returned error is never `UnexpectedEof`
when the channel only holds fetch-loop messages. -/
theorem load_spec (s : HttpStreamReader) (h : RInv s) :
    RInv (load_next_chunk s).2 ∧
    ((load_next_chunk s).1 = .ok () →
      (load_next_chunk s).2.buffer ≤ (load_next_chunk s).2.buffer_pos →
      (load_next_chunk s).2.eof = true) ∧
    (∀ e, (load_next_chunk s).1 = .error e → ChanWF s →
      e.kind ≠ .unexpectedEof) := by
  obtain ⟨h1, h2, h3⟩ := h
  by_cases heof : s.eof
  · have heq : load_next_chunk s = (.ok (), s) := by
      simp [load_next_chunk, heof]
    rw [heq]
    exact ⟨⟨h1, h2, h3⟩, fun _ _ => heof, fun e he => by simp at he⟩
  · rcases hcb : s.chunk_buffer with _ | ⟨c, rest⟩
    · rcases hrx : s.chunk_rx with _ | rx
      · exact absurd (h3 hrx) heof
      · have hfill := fill_chunks_spec rx.size rx (le_refl _) []
        rcases herr : (fill_chunks rx []).err with _ | e
        · rcases hcb2 : (fill_chunks rx []).chunk_buffer with _ | ⟨c, rest⟩
          · have heof2 : (fill_chunks rx []).eof = true := by
              rcases hfill.2.1 herr with hne | he
              · exact absurd hcb2 hne
              · exact he
            have heq : load_next_chunk s =
                (.ok (), { s with
                  chunk_rx := some (fill_chunks rx []).ch,
                  chunk_buffer := [], eof := true, buffer := 0,
                  buffer_pos := 0 }) := by
              simp [load_next_chunk, heof, hcb, hrx, herr, hcb2, heof2]
            rw [heq]
            exact ⟨⟨Nat.le_refl 0, by simp, fun _ => rfl⟩, fun _ _ => rfl,
              fun e he => by simp at he⟩
          · have hpos : ∀ x ∈ (fill_chunks rx []).chunk_buffer, 0 < x :=
              hfill.1 (by simp)
            have hcpos : 0 < c :=
              hpos c (by rw [hcb2]; exact List.mem_cons_self c rest)
            have heq : load_next_chunk s =
                (.ok (), { s with
                  chunk_rx := some (fill_chunks rx []).ch,
                  chunk_buffer := rest, eof := (fill_chunks rx []).eof,
                  buffer := c, buffer_pos := 0 }) := by
              simp [load_next_chunk, heof, hcb, hrx, herr, hcb2]
            rw [heq]
            refine ⟨⟨Nat.zero_le c, ?_, by simp⟩, fun _ hx => ?_,
              fun e he => by simp at he⟩
            · intro x hx
              exact hpos x (by rw [hcb2]; exact List.mem_cons_of_mem c hx)
            · exact absurd hx (by simp; omega)
        · have heq : load_next_chunk s =
              (.error e, { s with
                chunk_rx := some (fill_chunks rx []).ch,
                chunk_buffer := (fill_chunks rx []).chunk_buffer,
                eof := (fill_chunks rx []).eof }) := by
            simp [load_next_chunk, heof, hcb, hrx, herr]
          rw [heq]
          refine ⟨⟨h1, fun x hx => hfill.1 (by simp) x hx, by simp⟩,
            fun hok => by simp at hok, fun e2 he2 hwf => ?_⟩
          obtain rfl : e = e2 := by simpa using he2
          have hmem := hfill.2.2 e herr
          have hwf2 := hwf rx hrx
          rcases hmem with hm | hm
          · exact hwf2.1 _ hm
          · exact hwf2.2 _ hm
    · have hcpos : 0 < c := h2 c (by rw [hcb]; exact List.mem_cons_self c rest)
      have heq : load_next_chunk s =
          (.ok (), { s with
            buffer := c, buffer_pos := 0, chunk_buffer := rest }) := by
        simp [load_next_chunk, heof, hcb]
      rw [heq]
      refine ⟨⟨Nat.zero_le c, ?_, ?_⟩, fun _ hx => ?_, fun e he => by simp at he⟩
      · intro x hx
        exact h2 x (by rw [hcb]; exact List.mem_cons_of_mem c hx)
      · intro hrx
        exact absurd (h3 hrx) heof
      · exact absurd hx (by simp; omega)

/-- Facts about one `read` call from a state satisfying `RInv`: the
invariant is preserved; with a nonempty caller buffer, a 0-byte return
means the eof flag is set in the post state; a returned error is never
`UnexpectedEof` when the channel only holds fetch-loop messages. -/
theorem read_spec (s : HttpStreamReader) (n : Nat) (h : RInv s) :
    RInv (read s n).2 ∧
    (1 ≤ n → (read s n).1 = .ok 0 → (read s n).2.eof = true) ∧
    (∀ e, (read s n).1 = .error e → ChanWF s → e.kind ≠ .unexpectedEof) := by
  by_cases hex : s.buffer_pos ≥ s.buffer
  · obtain ⟨hl1, hl2, hl3⟩ := load_spec s h
    rcases hres : (load_next_chunk s).1 with e | u
    · have heq : read s n = (.error e, (load_next_chunk s).2) := by
        simp [read, hex, hres]
      rw [heq]
      refine ⟨hl1, fun _ hx => by simp at hx, fun e2 he2 hwf => ?_⟩
      obtain rfl : e = e2 := by simpa using he2
      exact hl3 e hres hwf
    · obtain ⟨hi1, hi2, hi3⟩ := hl1
      by_cases hex2 : (load_next_chunk s).2.buffer ≤ (load_next_chunk s).2.buffer_pos
      · have heq : read s n = (.ok 0, (load_next_chunk s).2) := by
          cases u
          simp [read, hex, hres, hex2]
        rw [heq]
        cases u
        exact ⟨⟨hi1, hi2, hi3⟩, fun _ _ => hl2 hres hex2,
          fun e he => by simp at he⟩
      · have hlt : (load_next_chunk s).2.buffer_pos < (load_next_chunk s).2.buffer := by
          omega
        set s1 := (load_next_chunk s).2 with hs1
        by_cases hov : s1.position + min n (s1.buffer - s1.buffer_pos) ≤ U64_MAX
        · have heq : read s n =
              (.ok (min n (s1.buffer - s1.buffer_pos)),
               { s1 with
                 buffer_pos := s1.buffer_pos + min n (s1.buffer - s1.buffer_pos),
                 position := s1.position + min n (s1.buffer - s1.buffer_pos) }) := by
            cases u
            simp [read, hex, hres, Nat.not_le.2 hlt, hov]
          rw [heq]
          refine ⟨⟨by dsimp only; omega, hi2, hi3⟩, fun hn hzero => ?_, fun e he => by simp at he⟩
          have h0 : min n (s1.buffer - s1.buffer_pos) = 0 := by simpa using hzero
          rcases Nat.min_eq_zero_iff.1 h0 with h0 | h0 <;> omega
        · have heq : read s n =
              (.error ⟨.other, "Stream position overflow"⟩,
               { s1 with
                 buffer_pos := s1.buffer_pos + min n (s1.buffer - s1.buffer_pos) }) := by
            cases u
            simp [read, hex, hres, Nat.not_le.2 hlt, hov]
          rw [heq]
          refine ⟨⟨by dsimp only; omega, hi2, hi3⟩, fun _ hx => by simp at hx,
            fun e he _ => ?_⟩
          obtain rfl : (⟨.other, "Stream position overflow"⟩ : IoError) = e := by
            simpa using he
          decide
  · obtain ⟨hi1, hi2, hi3⟩ := h
    have hlt : s.buffer_pos < s.buffer := by omega
    by_cases hov : s.position + min n (s.buffer - s.buffer_pos) ≤ U64_MAX
    · have heq : read s n =
          (.ok (min n (s.buffer - s.buffer_pos)),
           { s with
             buffer_pos := s.buffer_pos + min n (s.buffer - s.buffer_pos),
             position := s.position + min n (s.buffer - s.buffer_pos) }) := by
        simp [read, hex, hov]
      rw [heq]
      refine ⟨⟨by dsimp only; omega, hi2, hi3⟩, fun hn hzero => ?_, fun e he => by simp at he⟩
      have h0 : min n (s.buffer - s.buffer_pos) = 0 := by simpa using hzero
      rcases Nat.min_eq_zero_iff.1 h0 with h0 | h0 <;> omega
    · have heq : read s n =
          (.error ⟨.other, "Stream position overflow"⟩,
           { s with
             buffer_pos := s.buffer_pos + min n (s.buffer - s.buffer_pos) }) := by
        simp [read, hex, hov]
      rw [heq]
      refine ⟨⟨by dsimp only; omega, hi2, hi3⟩, fun _ hx => by simp at hx, fun e he _ => ?_⟩
      obtain rfl : (⟨.other, "Stream position overflow"⟩ : IoError) = e := by
        simpa using he
      decide

theorem start_stream_request_spec (s : HttpStreamReader) (off : Nat)
    (resp : Option HttpResponse) :
    ((start_stream_request s off resp).1 = .ok () →
      RInv (start_stream_request s off resp).2) ∧
    (∀ e, (start_stream_request s off resp).1 = .error e →
      (start_stream_request s off resp).2 =
        { s with network_requests := s.network_requests + 1 }) := by
  rcases resp with _ | response
  · exact ⟨fun hok => by simp [start_stream_request] at hok,
      fun e he => by simp [start_stream_request]⟩
  · by_cases hst : (response.status = PARTIAL_CONTENT ∨
        is_success response.status = true)
    · constructor
      · intro _
        rcases htl2 : total_length_from_response response with _ | t <;>
          simp [start_stream_request, hst, htl2, RInv]
      · intro e he
        rcases htl2 : total_length_from_response response with _ | t <;>
          simp [start_stream_request, hst, htl2] at he
    · constructor
      · intro hok
        simp [start_stream_request, hst] at hok
      · intro e he
        simp [start_stream_request, hst]

theorem start_stream_spec (s : HttpStreamReader) (off : Nat)
    (resp : Option HttpResponse) :
    ((start_stream s off resp).1 = .ok () → RInv (start_stream s off resp).2) ∧
    (∀ e, (start_stream s off resp).1 = .error e →
      (start_stream s off resp).2 = s ∨
      (start_stream s off resp).2 =
        { s with network_requests := s.network_requests + 1 }) := by
  rcases htl : s.total_length with _ | total
  · have heq : start_stream s off resp = start_stream_request s off resp := by
      simp [start_stream, htl]
    rw [heq]
    refine ⟨(start_stream_request_spec s off resp).1, fun e he => Or.inr ?_⟩
    have h2 := (start_stream_request_spec s off resp).2 e he
    rw [htl] at h2
    exact h2
  · by_cases h1 : off > total
    · have heq : start_stream s off resp =
          (.error ⟨.invalidInput, "Cannot open stream at offset beyond file size"⟩, s) := by
        simp [start_stream, htl, h1]
      rw [heq]
      exact ⟨fun hok => by simp at hok, fun e he => Or.inl rfl⟩
    · by_cases h2 : off = total
      · have heq : start_stream s off resp =
            (.ok (), { s with chunk_buffer := [], position := off, eof := true,
                              buffer := 0, buffer_pos := 0, chunk_rx := none }) := by
          simp [start_stream, htl, h1, h2]
        rw [heq]
        exact ⟨fun _ => ⟨Nat.le_refl 0, by simp, fun _ => rfl⟩,
          fun e he => by simp at he⟩
      · have heq : start_stream s off resp = start_stream_request s off resp := by
          simp [start_stream, htl, h1, h2]
        rw [heq]
        refine ⟨(start_stream_request_spec s off resp).1, fun e he => Or.inr ?_⟩
        have h2 := (start_stream_request_spec s off resp).2 e he
        rw [htl] at h2
        exact h2

theorem start_stream_RInv (s : HttpStreamReader) (off : Nat)
    (resp : Option HttpResponse) (h : RInv s) :
    RInv (start_stream s off resp).2 := by
  rcases hr : (start_stream s off resp).1 with e | u
  · rcases (start_stream_spec s off resp).2 e hr with he | he <;> rw [he]
    · exact h
    · exact ⟨h.1, h.2.1, h.2.2⟩
  · cases u
    exact (start_stream_spec s off resp).1 hr

theorem new_ok_RInv (url : String) (off : Nat) (resp : Option HttpResponse)
    (r : HttpStreamReader) (h : new url off resp = .ok r) : RInv r := by
  simp only [new] at h
  rcases hss : start_stream
      { url := url, buffer := 0, buffer_pos := 0, position := off, eof := false,
        total_length := none, chunk_rx := none, chunk_buffer := [],
        buffer_target_position := off, network_requests := 0 } off resp
    with ⟨res, st⟩
  rw [hss] at h
  rcases res with e | u
  · simp at h
  · simp at h
    subst h
    cases u
    have := (start_stream_spec
      { url := url, buffer := 0, buffer_pos := 0, position := off, eof := false,
        total_length := none, chunk_rx := none, chunk_buffer := [],
        buffer_target_position := off, network_requests := 0 } off resp).1
      (by rw [hss])
    rw [hss] at this
    exact this

theorem ensure_RInv (s : HttpStreamReader) (env : LengthProbeEnv) (h : RInv s) :
    RInv (ensure_total_length s env).2 := by
  unfold ensure_total_length
  dsimp only
  repeat' split
  all_goals exact h

theorem seek_cold_RInv (s : HttpStreamReader) (t : Nat) (env : SeekEnv)
    (h : RInv s) : RInv (seek_cold s t env).2 := by
  unfold seek_cold reopen_stream
  rcases hss : start_stream s t env.reopen with ⟨res, st⟩
  have h2 := start_stream_RInv s t env.reopen h
  rw [hss] at h2
  rcases res with e | u <;> exact h2

theorem seek_tail_RInv (s : HttpStreamReader) (t : Nat) (env : SeekEnv)
    (h : RInv s) : RInv (seek_tail s t env).2 := by
  unfold seek_tail
  dsimp only
  split
  · split
    · rename_i hloc
      unfold buffer_start at hloc
      refine ⟨?_, h.2.1, h.2.2⟩
      dsimp only
      unfold buffer_start
      omega
    · exact seek_cold_RInv s t env h
  · exact seek_cold_RInv s t env h

theorem seek_RInv (s : HttpStreamReader) (pos : SeekFrom) (env : SeekEnv)
    (h : RInv s) : RInv (seek s pos env).2 := by
  unfold seek
  rcases pos with off | delta | delta
  · dsimp only
    repeat' split
    all_goals first
      | exact h
      | exact seek_tail_RInv _ _ env h
      | exact ⟨Nat.le_refl 0, h.2.1, fun _ => rfl⟩
  · dsimp only
    repeat' split
    all_goals first
      | exact h
      | exact seek_tail_RInv _ _ env h
      | exact ⟨Nat.le_refl 0, h.2.1, fun _ => rfl⟩
  · dsimp only
    rcases hen : ensure_total_length s env.probe with ⟨res, st⟩
    have hst : RInv st := by
      have h2 := ensure_RInv s env.probe h
      rw [hen] at h2
      exact h2
    rcases res with e | u
    · exact hst
    · dsimp only
      rcases htl : st.total_length with _ | total
      · exact hst
      · dsimp only
        repeat' split
        all_goals first
          | exact hst
          | exact seek_tail_RInv _ _ env hst
          | exact ⟨Nat.le_refl 0, hst.2.1, fun _ => rfl⟩

theorem deliver_RInv (s : HttpStreamReader) (h : RInv s) : RInv (deliver s) := by
  unfold deliver
  split
  · split
    · exact ⟨h.1, h.2.1, by simp⟩
    · exact h
  · exact h

/-- Every reachable reader state satisfies the structural invariant. -/
theorem reachable_RInv (s : HttpStreamReader) (h : Reachable s) : RInv s := by
  induction h with
  | new_ok url off resp r hnew => exact new_ok_RInv url off resp r hnew
  | read_step s n _ ih => exact (read_spec s n ih).1
  | seek_step s pos env _ ih => exact seek_RInv s pos env ih
  | deliver_step s _ ih => exact deliver_RInv s ih

end HttpStreamReader

/-! ### C4: buffer-window invariant -/

/-- C4, counterexample: the claimed invariant is strict,
`buffer_start ≤ logical_position < buffer_start + buffer_len` whenever the
buffer is non-empty.  After a read that consumes the held buffer exactly,
the buffer is still the non-empty old chunk, the cursor sits at its end,
and `logical_position = buffer_start + buffer_len`, violating the strict
upper bound.  Concretely: open a stream delivering one 3-byte chunk and
read 3 bytes. -/
theorem C4_counterexample :
    HttpStreamReader.new "u" 0 (some ⟨200, none, none, [.chunk 3, .eofMark]⟩) =
      .ok { url := "u", buffer := 0, buffer_pos := 0, position := 0, eof := false,
            total_length := none, chunk_rx := some ⟨[], [.chunk 3, .eofMark]⟩,
            chunk_buffer := [], buffer_target_position := 0,
            network_requests := 1 } ∧
    HttpStreamReader.read
        { url := "u", buffer := 0, buffer_pos := 0, position := 0, eof := false,
          total_length := none, chunk_rx := some ⟨[], [.chunk 3, .eofMark]⟩,
          chunk_buffer := [], buffer_target_position := 0,
          network_requests := 1 } 3 =
      (.ok 3,
       { url := "u", buffer := 3, buffer_pos := 3, position := 3, eof := false,
         total_length := none, chunk_rx := some ⟨[], [.eofMark]⟩,
         chunk_buffer := [], buffer_target_position := 0,
         network_requests := 1 }) ∧
    HttpStreamReader.Reachable
      { url := "u", buffer := 3, buffer_pos := 3, position := 3, eof := false,
        total_length := none, chunk_rx := some ⟨[], [.eofMark]⟩,
        chunk_buffer := [], buffer_target_position := 0, network_requests := 1 } ∧
    ({ url := "u", buffer := 3, buffer_pos := 3, position := 3, eof := false,
       total_length := none, chunk_rx := some ⟨[], [.eofMark]⟩,
       chunk_buffer := [], buffer_target_position := 0,
       network_requests := 1 } : HttpStreamReader).buffer ≠ 0 ∧
    ¬ (({ url := "u", buffer := 3, buffer_pos := 3, position := 3, eof := false,
          total_length := none, chunk_rx := some ⟨[], [.eofMark]⟩,
          chunk_buffer := [], buffer_target_position := 0,
          network_requests := 1 } : HttpStreamReader).position <
        ({ url := "u", buffer := 3, buffer_pos := 3, position := 3, eof := false,
           total_length := none, chunk_rx := some ⟨[], [.eofMark]⟩,
           chunk_buffer := [], buffer_target_position := 0,
           network_requests := 1 } : HttpStreamReader).buffer_start +
        ({ url := "u", buffer := 3, buffer_pos := 3, position := 3, eof := false,
           total_length := none, chunk_rx := some ⟨[], [.eofMark]⟩,
           chunk_buffer := [], buffer_target_position := 0,
           network_requests := 1 } : HttpStreamReader).buffer) := by
  have hnew : HttpStreamReader.new "u" 0
      (some ⟨200, none, none, [.chunk 3, .eofMark]⟩) =
      .ok { url := "u", buffer := 0, buffer_pos := 0, position := 0, eof := false,
            total_length := none, chunk_rx := some ⟨[], [.chunk 3, .eofMark]⟩,
            chunk_buffer := [], buffer_target_position := 0,
            network_requests := 1 } := by rfl
  have hread : HttpStreamReader.read
      { url := "u", buffer := 0, buffer_pos := 0, position := 0, eof := false,
        total_length := none, chunk_rx := some ⟨[], [.chunk 3, .eofMark]⟩,
        chunk_buffer := [], buffer_target_position := 0,
        network_requests := 1 } 3 =
      (.ok 3,
       { url := "u", buffer := 3, buffer_pos := 3, position := 3, eof := false,
         total_length := none, chunk_rx := some ⟨[], [.eofMark]⟩,
         chunk_buffer := [], buffer_target_position := 0,
         network_requests := 1 }) := by
    simp [HttpStreamReader.read, HttpStreamReader.load_next_chunk,
      HttpStreamReader.fill_chunks, Channel.try_recv, Channel.blocking_recv,
      MIN_BUFFER_CHUNKS, U64_MAX]
  refine ⟨hnew, hread, ?_, by decide, by decide⟩
  have h := HttpStreamReader.Reachable.read_step _ 3
    (HttpStreamReader.Reachable.new_ok "u" 0
      (some ⟨200, none, none, [.chunk 3, .eofMark]⟩) _ hnew)
  rw [hread] at h
  exact h

/-- C4, amended: for every reachable state of the byte-stream reader with a
non-empty held buffer,
`buffer_start ≤ logical_position ≤ buffer_start + buffer_len` holds — the
upper bound is non-strict, with equality exactly when the buffer is fully
consumed; every read, seek, and fetch operation preserves this. -/
theorem C4_amended_buffer_window (s : HttpStreamReader)
    (h : HttpStreamReader.Reachable s) (hb : s.buffer ≠ 0) :
    s.buffer_start ≤ s.position ∧
      s.position ≤ s.buffer_start + s.buffer := by
  have h1 := (HttpStreamReader.reachable_RInv s h).1
  unfold HttpStreamReader.buffer_start
  omega

theorem C4_amended_buffer_window_witness :
    ({ url := "u", buffer := 4, buffer_pos := 2, position := 2, eof := false,
       total_length := none, chunk_rx := some ⟨[], []⟩, chunk_buffer := [],
       buffer_target_position := 0,
       network_requests := 1 } : HttpStreamReader).buffer_start ≤ 2 ∧
    2 ≤ ({ url := "u", buffer := 4, buffer_pos := 2, position := 2, eof := false,
           total_length := none, chunk_rx := some ⟨[], []⟩, chunk_buffer := [],
           buffer_target_position := 0,
           network_requests := 1 } : HttpStreamReader).buffer_start + 4 := by
  have hnew : HttpStreamReader.new "u" 0 (some ⟨200, none, none, [.chunk 4]⟩) =
      .ok { url := "u", buffer := 0, buffer_pos := 0, position := 0, eof := false,
            total_length := none, chunk_rx := some ⟨[], [.chunk 4]⟩,
            chunk_buffer := [], buffer_target_position := 0,
            network_requests := 1 } := by rfl
  have hread : HttpStreamReader.read
      { url := "u", buffer := 0, buffer_pos := 0, position := 0, eof := false,
        total_length := none, chunk_rx := some ⟨[], [.chunk 4]⟩,
        chunk_buffer := [], buffer_target_position := 0,
        network_requests := 1 } 2 =
      (.ok 2,
       { url := "u", buffer := 4, buffer_pos := 2, position := 2, eof := false,
         total_length := none, chunk_rx := some ⟨[], []⟩, chunk_buffer := [],
         buffer_target_position := 0, network_requests := 1 }) := by
    simp [HttpStreamReader.read, HttpStreamReader.load_next_chunk,
      HttpStreamReader.fill_chunks, Channel.try_recv, Channel.blocking_recv,
      MIN_BUFFER_CHUNKS, U64_MAX]
  have h := HttpStreamReader.Reachable.read_step _ 2
    (HttpStreamReader.Reachable.new_ok "u" 0 (some ⟨200, none, none, [.chunk 4]⟩)
      _ hnew)
  rw [hread] at h
  exact C4_amended_buffer_window _ h (by decide)

/-! ### C3: reads at end-of-stream and channel loss -/

/-- C3, counterexample: the claim says a read fails with UnexpectedEof
exactly when the chunk channel is gone without ever having produced EOF.
In the code a dead channel (TryRecvError::Disconnected, or blocking_recv
returning None) sets the eof flag and the read returns Ok(0): abnormal
termination of the fetch task is folded into end-of-stream, not reported
as an error.  Concretely: a freshly opened reader whose channel is closed
without a single message returns 0 bytes. -/
theorem C3_counterexample :
    HttpStreamReader.new "u" 0 (some ⟨200, none, none, []⟩) =
      .ok { url := "u", buffer := 0, buffer_pos := 0, position := 0, eof := false,
            total_length := none, chunk_rx := some ⟨[], []⟩, chunk_buffer := [],
            buffer_target_position := 0, network_requests := 1 } ∧
    ({ url := "u", buffer := 0, buffer_pos := 0, position := 0, eof := false,
       total_length := none, chunk_rx := some ⟨[], []⟩, chunk_buffer := [],
       buffer_target_position := 0,
       network_requests := 1 } : HttpStreamReader).chunk_rx = some ⟨[], []⟩ ∧
    HttpStreamReader.read
        { url := "u", buffer := 0, buffer_pos := 0, position := 0, eof := false,
          total_length := none, chunk_rx := some ⟨[], []⟩, chunk_buffer := [],
          buffer_target_position := 0, network_requests := 1 } 5 =
      (.ok 0,
       { url := "u", buffer := 0, buffer_pos := 0, position := 0, eof := true,
         total_length := none, chunk_rx := some ⟨[], []⟩, chunk_buffer := [],
         buffer_target_position := 0, network_requests := 1 }) := by
  refine ⟨by rfl, by rfl, ?_⟩
  simp [HttpStreamReader.read, HttpStreamReader.load_next_chunk,
    HttpStreamReader.fill_chunks, Channel.try_recv, Channel.blocking_recv,
    MIN_BUFFER_CHUNKS, U64_MAX]

/-- C3, amended: for every reachable reader state whose channel holds only
messages the fetch loop can send, and every read with a non-empty caller
buffer: a 0-byte return happens only with the end-of-stream flag set —
which covers a genuine EOF marker and also a channel that is gone without
having produced EOF (abnormal termination is treated as end-of-stream) —
and the read never fails with UnexpectedEof; errors surfaced by a read are
the fetch task's forwarded errors or the position-overflow error. -/
theorem C3_amended_read_eof (s : HttpStreamReader) (n : Nat)
    (hre : HttpStreamReader.Reachable s) (hwf : HttpStreamReader.ChanWF s)
    (hn : 1 ≤ n) :
    ((HttpStreamReader.read s n).1 = .ok 0 →
      (HttpStreamReader.read s n).2.eof = true) ∧
    (∀ e, (HttpStreamReader.read s n).1 = .error e →
      e.kind ≠ .unexpectedEof) := by
  have hi := HttpStreamReader.reachable_RInv s hre
  obtain ⟨h1, h2, h3⟩ := HttpStreamReader.read_spec s n hi
  exact ⟨h2 hn, fun e he => h3 e he hwf⟩

theorem C3_amended_read_eof_witness :
    (HttpStreamReader.read
      { url := "u", buffer := 0, buffer_pos := 0, position := 0, eof := false,
        total_length := none, chunk_rx := some ⟨[], [.eofMark]⟩,
        chunk_buffer := [], buffer_target_position := 0,
        network_requests := 1 } 1).2.eof = true := by
  have hnew : HttpStreamReader.new "u" 0 (some ⟨200, none, none, [.eofMark]⟩) =
      .ok { url := "u", buffer := 0, buffer_pos := 0, position := 0, eof := false,
            total_length := none, chunk_rx := some ⟨[], [.eofMark]⟩,
            chunk_buffer := [], buffer_target_position := 0,
            network_requests := 1 } := by rfl
  have hre := HttpStreamReader.Reachable.new_ok "u" 0
    (some ⟨200, none, none, [.eofMark]⟩) _ hnew
  have hwf : HttpStreamReader.ChanWF
      { url := "u", buffer := 0, buffer_pos := 0, position := 0, eof := false,
        total_length := none, chunk_rx := some ⟨[], [.eofMark]⟩,
        chunk_buffer := [], buffer_target_position := 0,
        network_requests := 1 } := by
    intro ch hch
    injection hch with hch
    subst hch
    refine ⟨by simp, ?_⟩
    intro m hm
    simp at hm
    subst hm
    trivial
  refine (C3_amended_read_eof _ 1 hre hwf (by decide)).1 ?_
  simp [HttpStreamReader.read, HttpStreamReader.load_next_chunk,
    HttpStreamReader.fill_chunks, Channel.try_recv, Channel.blocking_recv,
    MIN_BUFFER_CHUNKS, U64_MAX]

/-! ### C8: seek locality -/

/-- C8: seeking to a target inside the currently held buffer window
issues no network request, moves only the in-buffer cursor and the logical
position, and leaves the logical position equal to the target.  The target
is a u64 and, when a total length is known, must lie below it (a
length-consistent server always satisfies this, since delivered bytes
never extend past the advertised total). -/
theorem C8_local_seek (s : HttpStreamReader) (t : Nat)
    (env : HttpStreamReader.SeekEnv)
    (hb : s.buffer ≠ 0) (ht : t ≤ U64_MAX)
    (h1 : s.buffer_start ≤ t) (h2 : t < s.buffer_start + s.buffer)
    (h3 : ∀ total, s.total_length = some total → t < total) :
    HttpStreamReader.seek s (.start t) env =
      (.ok t, { s with buffer_pos := t - s.buffer_start, position := t }) ∧
    (HttpStreamReader.seek s (.start t) env).2.network_requests =
      s.network_requests ∧
    (HttpStreamReader.seek s (.start t) env).2.position = t ∧
    (HttpStreamReader.seek s (.start t) env).2.buffer = s.buffer ∧
    (HttpStreamReader.seek s (.start t) env).2.chunk_rx = s.chunk_rx := by
  have hmod : ((t : Int)).toNat % (U64_MAX + 1) = t := by
    rw [Int.toNat_natCast]
    exact Nat.mod_eq_of_lt (by omega)
  have hneg : ¬((t : Int) < 0) := by
    simp
  have heq : HttpStreamReader.seek s (.start t) env =
      (.ok t, { s with buffer_pos := t - s.buffer_start, position := t }) := by
    unfold HttpStreamReader.seek
    dsimp only
    rw [if_neg hneg, hmod]
    rcases htl : s.total_length with _ | total
    · unfold HttpStreamReader.seek_tail
      dsimp only
      rw [if_pos hb, if_pos ⟨h1, h2⟩, htl]
    · have hlt := h3 total htl
      dsimp only
      rw [if_neg (by omega : ¬ t > total), if_neg (by omega : ¬ t = total)]
      unfold HttpStreamReader.seek_tail
      dsimp only
      rw [if_pos hb, if_pos ⟨h1, h2⟩, htl]
  exact ⟨heq, by rw [heq], by rw [heq], by rw [heq], by rw [heq]⟩

theorem C8_local_seek_witness :
    (HttpStreamReader.seek
      { url := "u", buffer := 4, buffer_pos := 1, position := 11, eof := false,
        total_length := none, chunk_rx := some ⟨[], []⟩, chunk_buffer := [],
        buffer_target_position := 0, network_requests := 3 }
      (.start 12) ⟨⟨none, none⟩, none⟩).2.network_requests = 3 ∧
    (HttpStreamReader.seek
      { url := "u", buffer := 4, buffer_pos := 1, position := 11, eof := false,
        total_length := none, chunk_rx := some ⟨[], []⟩, chunk_buffer := [],
        buffer_target_position := 0, network_requests := 3 }
      (.start 12) ⟨⟨none, none⟩, none⟩).2.position = 12 :=
  ⟨(C8_local_seek _ 12 _ (by decide) (by decide) (by decide) (by decide)
      (fun total h => by cases h)).2.1,
   (C8_local_seek _ 12 _ (by decide) (by decide) (by decide) (by decide)
      (fun total h => by cases h)).2.2.1⟩

end MIU
